import Mathlib

/-!
Verification development for the neko-message-plane event store.

This file gives a shallow embedding of the claim-relevant parts of the
source (src/neko-message-plane/src/{types,utils,query,handlers}.rs) and
settles the frozen claims about it.

Modelling conventions:
* serde_json values are modelled by `Json` (numbers split into the integer
  constructor, mirroring PosInt/NegInt, and the float constructor, whose
  payload is an exact rational; float rounding is not modelled, and the
  float-grammar words inf and nan parse to none in the model).
* rmpv (MessagePack) values are modelled by `Mp`; the Ext constructor of
  rmpv is omitted (no handler constructs or inspects it).
* Object and array children use dedicated mutual list types so that all
  recursion is structural and closed terms evaluate by rfl.
* Wall-clock reads (SystemTime::now) are passed in as explicit rational
  arguments; atomic counters become plain state fields updated with the
  wrapping arithmetic of the source (u64 fetch_add wraps modulo 2^64).
* Environment-derived configuration is a `Cfg` record parameter.
-/

namespace NekoMP

/-! ## Json model (serde_json::Value) -/

mutual
inductive Json where
  | null
  | bool (b : Bool)
  | int (n : Int)
  | float (q : Rat)
  | str (s : String)
  | arr (xs : JsonList)
  | obj (kvs : JsonKVs)

inductive JsonList where
  | nil
  | cons (hd : Json) (tl : JsonList)

inductive JsonKVs where
  | nil
  | cons (k : String) (v : Json) (tl : JsonKVs)
end

def mkArr : List Json → JsonList
  | [] => .nil
  | j :: tl => .cons j (mkArr tl)

def mkKVs : List (String × Json) → JsonKVs
  | [] => .nil
  | (k, v) :: tl => .cons k v (mkKVs tl)

/-- Object literal helper, mirroring the json! macro (keys in literal order). -/
def Json.mkObj (l : List (String × Json)) : Json := .obj (mkKVs l)

/-- serde_json Map::get — first entry with the given key. -/
def jGet : JsonKVs → String → Option Json
  | .nil, _ => none
  | .cons k v tl, key => if k = key then some v else jGet tl key

def jsonKeys : JsonKVs → List String
  | .nil => []
  | .cons k _ tl => k :: jsonKeys tl

def Json.as_str : Json → Option String
  | .str s => some s
  | _ => none

def Json.as_bool : Json → Option Bool
  | .bool b => some b
  | _ => none

/-- serde_json as_i64: integers inside the signed 64-bit range; floats give none. -/
def Json.as_i64 : Json → Option Int
  | .int n => if -(2 ^ 63) ≤ n ∧ n ≤ 2 ^ 63 - 1 then some n else none
  | _ => none

/-- serde_json as_u64: non-negative integers inside the unsigned 64-bit range. -/
def Json.as_u64 : Json → Option Nat
  | .int n => if 0 ≤ n ∧ n ≤ 2 ^ 64 - 1 then some n.toNat else none
  | _ => none

/-- serde_json as_f64: every number answers (integer conversion modelled exactly). -/
def Json.as_f64 : Json → Option Rat
  | .int n => some (n : Rat)
  | .float q => some q
  | _ => none

def Json.is_number : Json → Bool
  | .int _ => true
  | .float _ => true
  | _ => false

def Json.is_string : Json → Bool
  | .str _ => true
  | _ => false

def Json.is_object : Json → Bool
  | .obj _ => true
  | _ => false

def Json.as_object : Json → Option JsonKVs
  | .obj kvs => some kvs
  | _ => none

/-! ## Mp model (rmpv::Value) -/

mutual
inductive Mp where
  | nil
  | bool (b : Bool)
  | int (n : Int)
  | float (q : Rat)
  | str (s : String)
  | bin (len : Nat)
  | arr (xs : MpList)
  | map (kvs : MpKVs)

inductive MpList where
  | nil
  | cons (hd : Mp) (tl : MpList)

inductive MpKVs where
  | nil
  | cons (k : Mp) (v : Mp) (tl : MpKVs)
end

def mkMpArr : List Mp → MpList
  | [] => .nil
  | m :: tl => .cons m (mkMpArr tl)

def mkMpMap : List (Mp × Mp) → MpKVs
  | [] => .nil
  | (k, v) :: tl => .cons k v (mkMpMap tl)

def Mp.as_str : Mp → Option String
  | .str s => some s
  | _ => none

def Mp.as_bool : Mp → Option Bool
  | .bool b => some b
  | _ => none

def Mp.as_i64 : Mp → Option Int
  | .int n => if -(2 ^ 63) ≤ n ∧ n ≤ 2 ^ 63 - 1 then some n else none
  | _ => none

def Mp.as_u64 : Mp → Option Nat
  | .int n => if 0 ≤ n ∧ n ≤ 2 ^ 64 - 1 then some n.toNat else none
  | _ => none

/-- rmpv as_f64: integers and floats answer (integer conversion modelled exactly). -/
def Mp.as_f64 : Mp → Option Rat
  | .int n => some (n : Rat)
  | .float q => some q
  | _ => none

def Mp.as_map : Mp → Option MpKVs
  | .map kvs => some kvs
  | _ => none

def Mp.is_map : Mp → Bool
  | .map _ => true
  | _ => false

/-- utils.rs mp_get: scan the map entries for the first string key equal to `key`. -/
def mp_get : Mp → String → Option Mp
  | .map kvs, key => mpGetKVs kvs key
  | _, _ => none
where
  mpGetKVs : MpKVs → String → Option Mp
    | .nil, _ => none
    | .cons k v tl, key =>
        match k.as_str with
        | some ks => if ks = key then some v else mpGetKVs tl key
        | none => mpGetKVs tl key

/-- utils.rs mp_get_str. -/
def mp_get_str (m : Mp) (key : String) : Option String :=
  (mp_get m key).bind Mp.as_str

-- utils.rs mp_to_json (rmpv ext conversion to serde_json); maps with a
-- non-string key and binary blobs do not convert.
mutual
def mpToJson : Mp → Option Json
  | .nil => some .null
  | .bool b => some (.bool b)
  | .int n => some (.int n)
  | .float q => some (.float q)
  | .str s => some (.str s)
  | .bin _ => none
  | .arr xs => (mpToJsonL xs).map Json.arr
  | .map kvs => (mpToJsonK kvs).map Json.obj

def mpToJsonL : MpList → Option JsonList
  | .nil => some .nil
  | .cons hd tl =>
      match mpToJson hd, mpToJsonL tl with
      | some h, some t => some (.cons h t)
      | _, _ => none

def mpToJsonK : MpKVs → Option JsonKVs
  | .nil => some .nil
  | .cons k v tl =>
      match k.as_str, mpToJson v, mpToJsonK tl with
      | some ks, some jv, some t => some (.cons ks jv t)
      | _, _, _ => none
end

/-! ## Numeric string parsing (Rust from_str semantics) -/

def isDigitChar (c : Char) : Bool := '0' ≤ c ∧ c ≤ '9'

def digitVal (c : Char) : Nat := c.toNat - 48

def parseDigitsAux : List Char → Nat → Option Nat
  | [], acc => some acc
  | c :: tl, acc =>
      if isDigitChar c then parseDigitsAux tl (acc * 10 + digitVal c) else none

/-- Parse a non-empty all-digit character list as a natural number. -/
def parseDigits (cs : List Char) : Option Nat :=
  if cs.isEmpty then none else parseDigitsAux cs 0

def stripSign : List Char → Bool × List Char
  | '-' :: tl => (true, tl)
  | '+' :: tl => (false, tl)
  | cs => (false, cs)

/-- Rust i64::from_str: optional sign, one or more digits, signed 64-bit range. -/
def parseI64 (s : String) : Option Int :=
  let (neg, rest) := stripSign s.toList
  match parseDigits rest with
  | none => none
  | some m =>
      let v : Int := if neg then -(m : Int) else (m : Int)
      if -(2 ^ 63) ≤ v ∧ v ≤ 2 ^ 63 - 1 then some v else none

def spanDigits : List Char → List Char × List Char
  | [] => ([], [])
  | c :: tl =>
      if isDigitChar c then
        let (d, r) := spanDigits tl
        (c :: d, r)
      else ([], c :: tl)

def digitsVal : List Char → Nat
  | [] => 0
  | c :: tl => digitsVal tl + digitVal c * 10 ^ tl.length

/-- Exponent suffix of the Rust float grammar: empty, or e/E sign? digits. -/
def parseExpSuffix : List Char → Option Int
  | [] => some 0
  | c :: tl =>
      if c = 'e' ∨ c = 'E' then
        let (neg, rest) := stripSign tl
        match parseDigits rest with
        | none => none
        | some m => some (if neg then -(m : Int) else (m : Int))
      else none

/-- Rust f64::from_str on the finite decimal grammar, with the exact rational
value (rounding to binary floating point is not modelled; the words inf and
nan are parsed to none). -/
def parseF64 (s : String) : Option Rat :=
  let (neg, cs) := stripSign s.toList
  let (ip, rest) := spanDigits cs
  let core : Option (Rat × List Char) :=
    match rest with
    | '.' :: cs2 =>
        let (fp, rest2) := spanDigits cs2
        if ip.isEmpty ∧ fp.isEmpty then none
        else some ((digitsVal ip : Rat) + (digitsVal fp : Rat) / (10 : Rat) ^ fp.length, rest2)
    | _ => if ip.isEmpty then none else some ((digitsVal ip : Rat), rest)
  match core with
  | none => none
  | some (mag, rest2) =>
      match parseExpSuffix rest2 with
      | none => none
      | some e =>
          let v := mag * (10 : Rat) ^ e
          some (if neg then -v else v)

/-! ## utils.rs extract_index -/

/-- Non-object fallback record of extract_index. -/
def baseIndex (default_ts : Rat) : Json :=
  Json.mkObj
    [("plugin_id", .null), ("source", .null), ("priority", .int 0), ("kind", .null),
     ("type", .null), ("timestamp", .float default_ts), ("id", .null)]

def optStrJson : Option String → Json
  | some s => .str s
  | none => .null

def nonEmptyStr (v : Option Json) : Option String :=
  (v.bind Json.as_str).filter (fun s => !s.isEmpty)

/-- Loop over the id candidate keys, keeping the first non-empty string hit. -/
def firstIdLoop (kvs : JsonKVs) : List String → Option String
  | [] => none
  | k :: tl =>
      match nonEmptyStr (jGet kvs k) with
      | some v => some v
      | none => firstIdLoop kvs tl

/-- Priority clause of extract_index (number guard, then string guard, else 0). -/
def priorityOfObj (kvs : JsonKVs) : Int :=
  match jGet kvs "priority" with
  | some v =>
      if v.is_number then (v.as_i64).getD 0
      else if v.is_string then ((v.as_str).bind parseI64).getD 0
      else 0
  | none => 0

/-- Type clause of extract_index: the type field, else the message_type field. -/
def typeOfObj (kvs : JsonKVs) : Option String :=
  match nonEmptyStr (jGet kvs "type") with
  | some t => some t
  | none => nonEmptyStr (jGet kvs "message_type")

/-- Timestamp clause of extract_index: timestamp or-else time, number guard,
string guard, else the default. -/
def tsOfObj (kvs : JsonKVs) (default_ts : Rat) : Rat :=
  match (match jGet kvs "timestamp" with
         | some v => some v
         | none => jGet kvs "time") with
  | some v =>
      if v.is_number then (v.as_f64).getD default_ts
      else if v.is_string then ((v.as_str).bind parseF64).getD default_ts
      else default_ts
  | none => default_ts

/-- utils.rs extract_index, translated clause by clause. -/
def extract_index (payload : Json) (default_ts : Rat) : Json :=
  match payload.as_object with
  | none => baseIndex default_ts
  | some kvs =>
      Json.mkObj
        [("plugin_id", optStrJson (nonEmptyStr (jGet kvs "plugin_id"))),
         ("source", optStrJson (nonEmptyStr (jGet kvs "source"))),
         ("priority", .int (priorityOfObj kvs)),
         ("kind", optStrJson (nonEmptyStr (jGet kvs "kind"))),
         ("type", optStrJson (typeOfObj kvs)),
         ("timestamp", .float (tsOfObj kvs default_ts)),
         ("id", optStrJson (firstIdLoop kvs
            ["message_id", "event_id", "lifecycle_id", "id", "task_id", "run_id"]))]

/-! ## Spec-side index record (written from the words of the spec) -/

/-- Spec: a missing or non-string or empty-string field is null. -/
def specStrField (kvs : JsonKVs) (k : String) : Option String :=
  match jGet kvs k with
  | some (.str s) => if s.isEmpty then none else some s
  | _ => none

/-- Spec: the integer priority of the payload, or a string parsed as a signed
integer, else 0. -/
def specPriority (kvs : JsonKVs) : Int :=
  match jGet kvs "priority" with
  | some (.int n) => if -(2 ^ 63) ≤ n ∧ n ≤ 2 ^ 63 - 1 then n else 0
  | some (.str s) => (parseI64 s).getD 0
  | _ => 0

/-- Spec: type, falling back to message_type when absent (empty counts as null). -/
def specType (kvs : JsonKVs) : Option String :=
  match specStrField kvs "type" with
  | some t => some t
  | none => specStrField kvs "message_type"

/-- Spec: timestamp, falling back to time, else the default; strings are parsed
as floats, failures give the default. -/
def specTimestamp (kvs : JsonKVs) (d : Rat) : Rat :=
  match (jGet kvs "timestamp").or (jGet kvs "time") with
  | some (.int n) => (n : Rat)
  | some (.float q) => q
  | some (.str s) => (parseF64 s).getD d
  | _ => d

/-- Spec: the first non-empty string among the six id candidate keys. -/
def specId (kvs : JsonKVs) : Option String :=
  ["message_id", "event_id", "lifecycle_id", "id", "task_id", "run_id"].findSome?
    (fun k => specStrField kvs k)

/-- Index subrecord as described by the spec. -/
def specIndex (payload : Json) (default_ts : Rat) : Json :=
  match payload with
  | .obj kvs =>
      Json.mkObj
        [("plugin_id", optStrJson (specStrField kvs "plugin_id")),
         ("source", optStrJson (specStrField kvs "source")),
         ("priority", .int (specPriority kvs)),
         ("kind", optStrJson (specStrField kvs "kind")),
         ("type", optStrJson (specType kvs)),
         ("timestamp", .float (specTimestamp kvs default_ts)),
         ("id", optStrJson (specId kvs))]
  | _ => baseIndex default_ts

/-! ### Field agreement lemmas -/

theorem nonEmptyStr_eq_specStrField (kvs : JsonKVs) (k : String) :
    nonEmptyStr (jGet kvs k) = specStrField kvs k := by
  unfold nonEmptyStr specStrField
  cases h : jGet kvs k with
  | none => rfl
  | some v =>
      cases v <;> simp [Json.as_str, Option.filter, Option.bind]
      split <;> simp_all

theorem firstIdLoop_eq_findSome (kvs : JsonKVs) (l : List String) :
    firstIdLoop kvs l = l.findSome? (fun k => specStrField kvs k) := by
  induction l with
  | nil => rfl
  | cons k tl ih =>
      rw [firstIdLoop, List.findSome?_cons, nonEmptyStr_eq_specStrField]
      cases specStrField kvs k <;> simp [ih]

theorem priority_agrees (kvs : JsonKVs) : priorityOfObj kvs = specPriority kvs := by
  unfold priorityOfObj specPriority
  cases h : jGet kvs "priority" with
  | none => rfl
  | some v =>
      cases v <;> simp [Json.is_number, Json.is_string, Json.as_i64, Json.as_str]
      split <;> simp

theorem type_agrees (kvs : JsonKVs) : typeOfObj kvs = specType kvs := by
  unfold typeOfObj specType
  rw [nonEmptyStr_eq_specStrField, nonEmptyStr_eq_specStrField]

theorem timestamp_agrees (kvs : JsonKVs) (d : Rat) :
    tsOfObj kvs d = specTimestamp kvs d := by
  unfold tsOfObj specTimestamp
  have hor : (match jGet kvs "timestamp" with
              | some v => some v
              | none => jGet kvs "time") = (jGet kvs "timestamp").or (jGet kvs "time") := by
    cases jGet kvs "timestamp" <;> simp [Option.or]
  rw [hor]
  cases h : (jGet kvs "timestamp").or (jGet kvs "time") with
  | none => rfl
  | some v => cases v <;> simp [Json.is_number, Json.is_string, Json.as_f64, Json.as_str]

/-- C5: extract_index is a pure function of payload and default timestamp,
its result is the record with exactly the keys plugin_id, source, priority,
kind, type, timestamp, id, each field follows the fallback and coercion rules
of the spec (priority integer-or-parsed-string-else-0; type falling back to
message_type; timestamp falling back to time then the default, strings parsed
as floats; id the first non-empty of the six candidate keys; empty strings
null), and a non-object payload gives the all-null record with priority 0 and
the default timestamp. -/
theorem C5_extract_index_matches_spec (payload : Json) (ts : Rat) :
    extract_index payload ts = specIndex payload ts ∧
    (∃ kvs, extract_index payload ts = Json.obj kvs ∧
      jsonKeys kvs = ["plugin_id", "source", "priority", "kind", "type", "timestamp", "id"]) ∧
    (payload.is_object = false → extract_index payload ts = baseIndex ts) := by
  refine ⟨?_, ?_, ?_⟩
  · cases payload with
    | obj kvs =>
        show extract_index (Json.obj kvs) ts = specIndex (Json.obj kvs) ts
        unfold extract_index specIndex
        simp only [Json.as_object]
        rw [firstIdLoop_eq_findSome, priority_agrees, timestamp_agrees, type_agrees,
          nonEmptyStr_eq_specStrField, nonEmptyStr_eq_specStrField,
          nonEmptyStr_eq_specStrField]
        rfl
    | null => rfl
    | bool b => rfl
    | int n => rfl
    | float q => rfl
    | str s => rfl
    | arr xs => rfl
  · cases payload <;> exact ⟨_, rfl, rfl⟩
  · intro h
    cases payload <;> first
      | rfl
      | exact absurd h (by simp [Json.is_object])

/-- Witness for C5 at a concrete non-object payload. -/
theorem C5_extract_index_matches_spec_witness :
    extract_index (Json.int 3) 7 = specIndex (Json.int 3) 7 ∧
    extract_index (Json.int 3) 7 = baseIndex 7 :=
  ⟨(C5_extract_index_matches_spec (Json.int 3) 7).1,
   (C5_extract_index_matches_spec (Json.int 3) 7).2.2 rfl⟩

/-! ## Store model (types.rs) -/

structure Event where
  seq : Nat
  ts : Rat
  store : String
  topic : String
  payload : Json
  index : Json

structure TopicMeta where
  created_at : Rat
  last_ts : Rat
  count_total : Nat

/-- Association-list lookup (DashMap get). -/
def alGet {α : Type} : List (String × α) → String → Option α
  | [], _ => none
  | (k0, v0) :: tl, k => if k0 = k then some v0 else alGet tl k

/-- Association-list insert (DashMap insert / entry().or_insert overwrite):
an existing key keeps its slot, a fresh key is appended. -/
def alInsert {α : Type} : List (String × α) → String → α → List (String × α)
  | [], k, v => [(k, v)]
  | (k0, v0) :: tl, k, v =>
      if k0 = k then (k0, v) :: tl else (k0, v0) :: alInsert tl k v

def alContains {α : Type} (l : List (String × α)) (k : String) : Bool :=
  (alGet l k).isSome

/-- u64 saturating_add. -/
def satAdd (a b : Nat) : Nat := min (a + b) (2 ^ 64 - 1)

structure StoreSt where
  maxlen : Nat
  topic_max : Nat
  next_seq : Nat
  topics : List (String × List Event)
  meta : List (String × TopicMeta)
  read_cache : List (String × List Event)
  total_publishes : Nat
  total_queries : Nat
  cache_hits : Nat
  cache_misses : Nat

/-- Store::new. -/
def StoreSt.new (maxlen topic_max : Nat) : StoreSt :=
  ⟨maxlen, topic_max, 1, [], [], [], 0, 0, 0, 0⟩

/-- The buffer of a topic (empty when the topic does not exist). -/
def bufOf (st : StoreSt) (topic : String) : List Event :=
  (alGet st.topics topic).getD []

/-- The while-loop of Store::publish: pop_front while the queue is longer
than maxlen. -/
def trimFront (m : Nat) : List Event → List Event
  | [] => []
  | e :: tl => if (e :: tl).length > m then trimFront m tl else e :: tl

/-- Store::update_read_cache; `tryReadOk` models whether the non-blocking
try_read acquired the lock (best-effort refresh). -/
def update_read_cache (st : StoreSt) (topic : String) (tryReadOk : Bool) : StoreSt :=
  match alGet st.topics topic with
  | some q =>
      if tryReadOk then { st with read_cache := alInsert st.read_cache topic q } else st
  | none => st

/-- Store::publish: allocate seq (u64 fetch_add, wrapping), extract the index,
ensure metadata, append to the topic queue and trim from the front, update
metadata and best-effort read cache, bump the publish counter. -/
def StoreSt.publish (st : StoreSt) (store topic : String) (payload : Json)
    (ts : Rat) (tryReadOk : Bool) : Event × StoreSt :=
  let seq := st.next_seq
  let st1 := { st with next_seq := (st.next_seq + 1) % 2 ^ 64 }
  let idx := extract_index payload ts
  let ev : Event := ⟨seq, ts, store, topic, payload, idx⟩
  let st2 := { st1 with
    meta := if alContains st1.meta topic then st1.meta
            else alInsert st1.meta topic ⟨ts, ts, 0⟩ }
  let q := (alGet st2.topics topic).getD []
  let q2 := trimFront st2.maxlen (q ++ [ev])
  let st3 := { st2 with topics := alInsert st2.topics topic q2 }
  let st4 := { st3 with
    meta := match alGet st3.meta topic with
      | some m => alInsert st3.meta topic { m with last_ts := ts, count_total := satAdd m.count_total 1 }
      | none => st3.meta }
  let st5 := update_read_cache st4 topic tryReadOk
  let st6 := { st5 with total_publishes := st5.total_publishes + 1 }
  (ev, st6)

/-- Publish each record of a replace in order (the for-loop of replace_topic).
Each record carries its own wall-clock reading and try_read outcome. -/
def publishEach (store topic : String) :
    StoreSt → List (Json × Rat × Bool) → List Event × StoreSt
  | st, [] => ([], st)
  | st, (p, ts, f) :: tl =>
      let r := StoreSt.publish st store topic p ts f
      let rest := publishEach store topic r.2 tl
      (r.1 :: rest.1, rest.2)

/-- Store::replace_topic: ensure and clear the topic queue, reset its
metadata, then publish each record in order. -/
def StoreSt.replace_topic (st : StoreSt) (store topic : String)
    (items : List (Json × Rat × Bool)) (ts : Rat) : List Event × StoreSt :=
  let st1 := { st with topics := alInsert st.topics topic [] }
  let st2 := { st1 with meta := alInsert st1.meta topic ⟨ts, ts, 0⟩ }
  publishEach store topic st2 items

/-- Store::get_recent: read-cache fast path, else locked queue, returning the
last min(limit, size) events in insertion order; bumps hit or miss counters. -/
def StoreSt.get_recent (st : StoreSt) (topic : String) (limit : Nat) :
    List Event × StoreSt :=
  match alGet st.read_cache topic with
  | some cache =>
      let st1 := { st with cache_hits := st.cache_hits + 1 }
      let n := min limit cache.length
      (cache.drop (cache.length - n), st1)
  | none =>
      let st1 := { st with cache_misses := st.cache_misses + 1 }
      match alGet st.topics topic with
      | none => ([], st1)
      | some q =>
          let n := min limit q.length
          (q.drop (q.length - n), st1)

/-- Stable ascending insertion by seq (Rust stable sort_by_key). -/
def insertAsc (e : Event) : List Event → List Event
  | [] => [e]
  | a :: l => if e.seq ≤ a.seq then e :: a :: l else a :: insertAsc e l

def sortSeqAsc : List Event → List Event
  | [] => []
  | e :: l => insertAsc e (sortSeqAsc l)

/-- Store::get_since: scan one topic (or all when empty/star/None), keep
events with seq > after_seq, sort by seq ascending, truncate. -/
def StoreSt.get_since (st : StoreSt) (topic : Option String) (after_seq : Nat)
    (limit : Nat) : List Event × StoreSt :=
  let st1 := { st with total_queries := st.total_queries + 1 }
  let queues : List (List Event) :=
    match topic with
    | some t => if !t.isEmpty && t ≠ "*" then [(alGet st.topics t).getD []]
                else st.topics.map Prod.snd
    | none => st.topics.map Prod.snd
  let snapshots := (queues.map (fun q => q.filter (fun ev => after_seq < ev.seq))).flatten
  let sorted := sortSeqAsc snapshots
  (sorted.take limit, st1)

/-! ## Operation traces over one store -/

inductive SOp where
  | pub (store topic : String) (payload : Json) (ts : Rat) (ok : Bool)
  | clear (topic : String) (ts : Rat)
  | recent (topic : String) (limit : Nat)
  | since (topic : Option String) (after_seq : Nat) (limit : Nat)

def SOp.apply (st : StoreSt) : SOp → StoreSt
  | .pub s t p ts ok => (st.publish s t p ts ok).2
  | .clear t ts =>
      { st with topics := alInsert st.topics t [], meta := alInsert st.meta t ⟨ts, ts, 0⟩ }
  | .recent t n => (st.get_recent t n).2
  | .since t a n => (st.get_since t a n).2

def runOps (st : StoreSt) : List SOp → StoreSt
  | [] => st
  | o :: tl => runOps (o.apply st) tl

/-- Events produced by the publish steps of a trace, in allocation order. -/
def runPubLog (st : StoreSt) : List SOp → List Event × StoreSt
  | [] => ([], st)
  | .pub s t p ts f :: tl =>
      let r := st.publish s t p ts f
      let rest := runPubLog r.2 tl
      (r.1 :: rest.1, rest.2)
  | .clear t ts :: tl => runPubLog ((SOp.clear t ts).apply st) tl
  | .recent t n :: tl => runPubLog ((SOp.recent t n).apply st) tl
  | .since t a n :: tl => runPubLog ((SOp.since t a n).apply st) tl

def pubCount : List SOp → Nat
  | [] => 0
  | .pub _ _ _ _ _ :: tl => pubCount tl + 1
  | .clear _ _ :: tl => pubCount tl
  | .recent _ _ :: tl => pubCount tl
  | .since _ _ _ :: tl => pubCount tl

/-! ## Association-list and trim lemmas -/

theorem alGet_alInsert_self {α : Type} (l : List (String × α)) (k : String) (v : α) :
    alGet (alInsert l k v) k = some v := by
  induction l with
  | nil => simp [alInsert, alGet]
  | cons hd tl ih =>
      obtain ⟨k0, v0⟩ := hd
      by_cases h : k0 = k <;> simp [alInsert, alGet, h, ih]

theorem alGet_alInsert_ne {α : Type} (l : List (String × α)) (k k' : String) (v : α)
    (h : k ≠ k') : alGet (alInsert l k v) k' = alGet l k' := by
  induction l with
  | nil => simp [alInsert, alGet, h]
  | cons hd tl ih =>
      obtain ⟨k0, v0⟩ := hd
      by_cases h0 : k0 = k
      · subst h0
        simp [alInsert, alGet, h]
      · simp [alInsert, alGet, h0, ih]

theorem trimFront_length_le (m : Nat) (l : List Event) : (trimFront m l).length ≤ m := by
  induction l with
  | nil => simp [trimFront]
  | cons e tl ih =>
      rw [trimFront]
      split
      · exact ih
      · omega

/-- Suffix relation: the first list is the second with some front entries removed. -/
def SuffixOf {α : Type} (s l : List α) : Prop := ∃ pre, l = pre ++ s

theorem trimFront_suffix (m : Nat) (l : List Event) : SuffixOf (trimFront m l) l := by
  induction l with
  | nil => exact ⟨[], rfl⟩
  | cons e tl ih =>
      rw [trimFront]
      split
      · obtain ⟨pre, hp⟩ := ih
        exact ⟨e :: pre, by rw [List.cons_append, ← hp]⟩
      · exact ⟨[], rfl⟩

/-! ## Effect of publish on the state -/

theorem publish_fields (st : StoreSt) (s t : String) (p : Json) (ts : Rat) (f : Bool) :
    ((st.publish s t p ts f).1).seq = st.next_seq ∧
    ((st.publish s t p ts f).2).maxlen = st.maxlen ∧
    ((st.publish s t p ts f).2).next_seq = (st.next_seq + 1) % 2 ^ 64 ∧
    ((st.publish s t p ts f).2).topics
      = alInsert st.topics t (trimFront st.maxlen (bufOf st t ++ [(st.publish s t p ts f).1])) ∧
    ((st.publish s t p ts f).2).read_cache
      = (if f then
           alInsert st.read_cache t (trimFront st.maxlen (bufOf st t ++ [(st.publish s t p ts f).1]))
         else st.read_cache) := by
  cases f <;>
    simp [StoreSt.publish, update_read_cache, bufOf, alGet_alInsert_self]

theorem get_recent_state (st : StoreSt) (t : String) (n : Nat) :
    ((st.get_recent t n).2).topics = st.topics ∧
    ((st.get_recent t n).2).read_cache = st.read_cache ∧
    ((st.get_recent t n).2).maxlen = st.maxlen ∧
    ((st.get_recent t n).2).next_seq = st.next_seq := by
  unfold StoreSt.get_recent
  cases alGet st.read_cache t with
  | none => cases alGet st.topics t with
    | none => exact ⟨rfl, rfl, rfl, rfl⟩
    | some q => exact ⟨rfl, rfl, rfl, rfl⟩
  | some c => exact ⟨rfl, rfl, rfl, rfl⟩

theorem get_since_state (st : StoreSt) (t : Option String) (a n : Nat) :
    ((st.get_since t a n).2).topics = st.topics ∧
    ((st.get_since t a n).2).read_cache = st.read_cache ∧
    ((st.get_since t a n).2).maxlen = st.maxlen ∧
    ((st.get_since t a n).2).next_seq = st.next_seq := by
  exact ⟨rfl, rfl, rfl, rfl⟩

theorem apply_maxlen (st : StoreSt) (o : SOp) : (o.apply st).maxlen = st.maxlen := by
  cases o with
  | pub s t p ts f => exact (publish_fields st s t p ts f).2.1
  | clear t ts => rfl
  | recent t n => exact (get_recent_state st t n).2.2.1
  | since t a n => exact (get_since_state st t a n).2.2.1

theorem runOps_maxlen (tr : List SOp) : ∀ st : StoreSt, (runOps st tr).maxlen = st.maxlen := by
  induction tr with
  | nil => intro st; rfl
  | cons o tl ih => intro st; rw [runOps, ih, apply_maxlen]

/-! ## C3: bounded buffers, front eviction -/

theorem bufOf_publish (st : StoreSt) (s t t' : String) (p : Json) (ts : Rat) (f : Bool) :
    bufOf ((st.publish s t p ts f).2) t'
      = (if t = t' then trimFront st.maxlen (bufOf st t ++ [(st.publish s t p ts f).1])
         else bufOf st t') := by
  have h := (publish_fields st s t p ts f).2.2.2.1
  by_cases ht : t = t'
  · subst ht
    simp [bufOf, h, alGet_alInsert_self]
  · simp [bufOf, h, alGet_alInsert_ne _ _ _ _ ht, ht]

theorem bufOf_apply_le (st : StoreSt) (o : SOp) (t : String)
    (h : ∀ t', (bufOf st t').length ≤ st.maxlen) :
    (bufOf (o.apply st) t).length ≤ st.maxlen := by
  cases o with
  | pub s t0 p ts f =>
      rw [SOp.apply, bufOf_publish]
      split
      · exact trimFront_length_le _ _
      · exact h t
  | clear t0 ts =>
      simp only [SOp.apply]
      by_cases h0 : t0 = t
      · subst h0
        simp [bufOf, alGet_alInsert_self]
      · simp only [bufOf, alGet_alInsert_ne _ _ _ _ h0]
        exact h t
  | recent t0 n =>
      have hs := (get_recent_state st t0 n).1
      simpa [SOp.apply, bufOf, hs] using h t
  | since t0 a n =>
      have hs := (get_since_state st t0 a n).1
      simpa [SOp.apply, bufOf, hs] using h t

theorem runOps_buf_le (tr : List SOp) : ∀ st : StoreSt,
    (∀ t, (bufOf st t).length ≤ st.maxlen) →
    ∀ t, (bufOf (runOps st tr) t).length ≤ st.maxlen := by
  induction tr with
  | nil => intro st h t; exact h t
  | cons o tl ih =>
      intro st h t
      rw [runOps]
      have h2 : ∀ t', (bufOf (o.apply st) t').length ≤ (o.apply st).maxlen := by
        intro t'
        rw [apply_maxlen]
        exact bufOf_apply_le st o t' h
      have := ih (o.apply st) h2 t
      rwa [apply_maxlen] at this

/-- C3: for every store and topic, after any sequence of operations from a
fresh store every topic buffer holds at most maxlen events, and a single
publish leaves the topic buffer a suffix of the old buffer extended with the
new event — the evicted entries are exactly the oldest (front) ones. -/
theorem C3_bounded_buffer_front_eviction :
    (∀ (m tm : Nat) (tr : List SOp) (t : String),
       (bufOf (runOps (StoreSt.new m tm) tr) t).length ≤ m) ∧
    (∀ (st : StoreSt) (s t : String) (p : Json) (ts : Rat) (f : Bool),
       (bufOf ((st.publish s t p ts f).2) t).length ≤ st.maxlen ∧
       SuffixOf (bufOf ((st.publish s t p ts f).2) t)
         (bufOf st t ++ [(st.publish s t p ts f).1])) := by
  constructor
  · intro m tm tr t
    have h0 : ∀ t', (bufOf (StoreSt.new m tm) t').length ≤ (StoreSt.new m tm).maxlen := by
      intro t'
      simp [bufOf, StoreSt.new, alGet]
    exact runOps_buf_le tr (StoreSt.new m tm) h0 t
  · intro st s t p ts f
    rw [bufOf_publish, if_pos rfl]
    exact ⟨trimFront_length_le _ _, trimFront_suffix _ _⟩

/-! ## C4: sequence numbers -/

theorem apply_next_seq_eq (st : StoreSt) (o : SOp) (h : ∀ s t p ts f, o ≠ .pub s t p ts f) :
    (o.apply st).next_seq = st.next_seq := by
  cases o with
  | pub s t p ts f => exact absurd rfl (h s t p ts f)
  | clear t ts => rfl
  | recent t n => exact (get_recent_state st t n).2.2.2
  | since t a n => exact (get_since_state st t a n).2.2.2

theorem runPubLog_nil_of_zero (tr : List SOp) : ∀ st : StoreSt,
    pubCount tr = 0 → (runPubLog st tr).1 = [] := by
  induction tr with
  | nil => intro st _; rfl
  | cons o tl ih =>
      intro st h
      cases o with
      | pub s t p ts f => simp [pubCount] at h
      | clear t ts => exact ih _ h
      | recent t n => exact ih _ h
      | since t a n => exact ih _ h

theorem runPubLog_map_seq (tr : List SOp) : ∀ st : StoreSt,
    st.next_seq + pubCount tr ≤ 2 ^ 64 →
    (runPubLog st tr).1.map Event.seq = List.range' st.next_seq (pubCount tr) := by
  induction tr with
  | nil => intro st _; rfl
  | cons o tl ih =>
      intro st h
      cases o with
      | pub s t p ts f =>
          have hseq := (publish_fields st s t p ts f).1
          have hnext := (publish_fields st s t p ts f).2.2.1
          have hcount : pubCount (SOp.pub s t p ts f :: tl) = pubCount tl + 1 := rfl
          rw [hcount] at h
          rw [runPubLog]
          by_cases hlt : st.next_seq + 1 < 2 ^ 64
          · have hmod : (st.next_seq + 1) % 2 ^ 64 = st.next_seq + 1 := Nat.mod_eq_of_lt hlt
            have hle : ((st.publish s t p ts f).2).next_seq + pubCount tl ≤ 2 ^ 64 := by
              rw [hnext, hmod]
              omega
            have ihh := ih ((st.publish s t p ts f).2) hle
            rw [hnext, hmod] at ihh
            simp only [List.map, hseq, ihh, hcount]
            rw [List.range'_succ]
          · have hz : pubCount tl = 0 := by omega
            have hrest := runPubLog_nil_of_zero tl ((st.publish s t p ts f).2) hz
            simp only [List.map, hseq, hrest, hcount, hz]
            rfl
      | clear t ts =>
          rw [runPubLog]
          have hns : ((SOp.clear t ts).apply st).next_seq = st.next_seq := rfl
          have hle : ((SOp.clear t ts).apply st).next_seq + pubCount tl ≤ 2 ^ 64 := by
            rw [hns]
            exact h
          have := ih _ hle
          rw [hns] at this
          exact this
      | recent t n =>
          rw [runPubLog]
          have hns : ((SOp.recent t n).apply st).next_seq = st.next_seq :=
            (get_recent_state st t n).2.2.2
          have hle : ((SOp.recent t n).apply st).next_seq + pubCount tl ≤ 2 ^ 64 := by
            rw [hns]
            exact h
          have := ih _ hle
          rw [hns] at this
          exact this
      | since t a n =>
          rw [runPubLog]
          have hns : ((SOp.since t a n).apply st).next_seq = st.next_seq := rfl
          have hle : ((SOp.since t a n).apply st).next_seq + pubCount tl ≤ 2 ^ 64 := by
            rw [hns]
            exact h
          have := ih _ hle
          rw [hns] at this
          exact this

theorem mem_range'_ge (m s n : Nat) : m ∈ List.range' s n → s ≤ m := by
  induction n generalizing s with
  | zero => intro h; cases h
  | succ k ih =>
      intro h
      rw [List.range'_succ] at h
      rcases List.mem_cons.mp h with h1 | h2
      · omega
      · have := ih (s + 1) h2
        omega

theorem pairwise_lt_range' (s n : Nat) : List.Pairwise (· < ·) (List.range' s n) := by
  induction n generalizing s with
  | zero => exact List.Pairwise.nil
  | succ k ih =>
      rw [List.range'_succ]
      refine List.Pairwise.cons ?_ (ih (s + 1))
      intro b hb
      have := mem_range'_ge b (s + 1) k hb
      omega

/-- C4: from a fresh store, the sequence counter starts at 1, so as long as
fewer than 2^64 events are published every published event has seq ≥ 1, and
across all topics the allocated sequence numbers are exactly 1, 2, …, n in
allocation order — unique and strictly increasing. -/
theorem C4_seq_monotone_unique (m tm : Nat) (tr : List SOp)
    (h : pubCount tr < 2 ^ 64) :
    (runPubLog (StoreSt.new m tm) tr).1.map Event.seq = List.range' 1 (pubCount tr) ∧
    (∀ e ∈ (runPubLog (StoreSt.new m tm) tr).1, 1 ≤ e.seq) ∧
    List.Pairwise (· < ·) ((runPubLog (StoreSt.new m tm) tr).1.map Event.seq) := by
  have hmain := runPubLog_map_seq tr (StoreSt.new m tm) (by show 1 + pubCount tr ≤ 2 ^ 64; omega)
  have h1 : (StoreSt.new m tm).next_seq = 1 := rfl
  rw [h1] at hmain
  refine ⟨hmain, ?_, ?_⟩
  · intro e he
    have : e.seq ∈ List.range' 1 (pubCount tr) := by
      rw [← hmain]
      exact List.mem_map_of_mem Event.seq he
    exact mem_range'_ge e.seq 1 (pubCount tr) this
  · rw [hmain]
    exact pairwise_lt_range' 1 (pubCount tr)

/-! ## query.rs: dedupe key and binary set algebra (C6) -/

/-- query.rs dedupe_key: the id field of the index when it is a non-empty
string, else the seq, each tagged to disambiguate. -/
def dedupe_key (ev : Event) : String × String :=
  match ((ev.index.as_object.bind (fun o => jGet o "id")).bind Json.as_str).filter
      (fun s => !s.isEmpty) with
  | some idv => ("id", idv)
  | none => ("seq", toString ev.seq)

/-- Stable descending insertion by seq (Rust sort_by with the reversed
comparator is a stable sort). -/
def insertDesc (e : Event) : List Event → List Event
  | [] => [e]
  | a :: l => if a.seq ≤ e.seq then e :: a :: l else a :: insertDesc e l

def sortSeqDesc : List Event → List Event
  | [] => []
  | e :: l => insertDesc e (sortSeqDesc l)

/-- Shared shape of the three scan loops of apply_binary_op: walk the left
operand (or the chained operands), skip keys already seen, keep an event when
its key passes the filter, remembering kept keys. -/
def dedupeScan (keep : String × String → Bool) (seen : List (String × String)) :
    List Event → List Event
  | [] => []
  | ev :: tl =>
      let k := dedupe_key ev
      if k ∈ seen then dedupeScan keep seen tl
      else if keep k then ev :: dedupeScan keep (k :: seen) tl
      else dedupeScan keep seen tl

/-- query.rs apply_binary_op. -/
def apply_binary_op (left right : List Event) (op : String) : Option (List Event) :=
  if op ≠ "merge" ∧ op ≠ "intersection" ∧ op ≠ "difference" then none
  else
    let set_right := right.map dedupe_key
    if op = "merge" then
      some (sortSeqDesc (dedupeScan (fun _ => true) [] (left ++ right)))
    else if op = "intersection" then
      some (sortSeqDesc (dedupeScan (fun k => k ∈ set_right) [] left))
    else if op = "difference" then
      some (sortSeqDesc (dedupeScan (fun k => k ∉ set_right) [] left))
    else none

/-- The deduplication of a list as the spec uses the word: first occurrence
per key, presented sorted by seq descending. -/
def dedupe (X : List Event) : List Event :=
  sortSeqDesc (dedupeScan (fun _ => true) [] X)

theorem perm_insertDesc (e : Event) (l : List Event) : List.Perm (insertDesc e l) (e :: l) := by
  induction l with
  | nil => exact List.Perm.refl _
  | cons a tl ih =>
      rw [insertDesc]
      split
      · exact List.Perm.refl _
      · exact (ih.cons a).trans (List.Perm.swap e a tl)

theorem sortSeqDesc_perm (l : List Event) : List.Perm (sortSeqDesc l) l := by
  induction l with
  | nil => exact List.Perm.refl _
  | cons e tl ih => exact (perm_insertDesc e (sortSeqDesc tl)).trans (ih.cons e)

theorem mem_sortSeqDesc (x : Event) (l : List Event) : x ∈ sortSeqDesc l ↔ x ∈ l :=
  (sortSeqDesc_perm l).mem_iff

theorem insertDesc_sorted (e : Event) (l : List Event)
    (h : List.Pairwise (fun a b => b.seq ≤ a.seq) l) :
    List.Pairwise (fun a b => b.seq ≤ a.seq) (insertDesc e l) := by
  induction l with
  | nil => exact List.pairwise_singleton _ _
  | cons a tl ih =>
      rw [insertDesc]
      rcases List.pairwise_cons.mp h with ⟨ha, htl⟩
      split
      · rename_i hle
        refine List.pairwise_cons.mpr ⟨?_, h⟩
        intro b hb
        rcases List.mem_cons.mp hb with hb1 | hb2
        · subst hb1; exact hle
        · exact le_trans (ha b hb2) hle
      · rename_i hgt
        refine List.pairwise_cons.mpr ⟨?_, ih htl⟩
        intro b hb
        rcases List.mem_cons.mp ((perm_insertDesc e tl).mem_iff.mp hb) with hb1 | hb2
        · subst hb1; omega
        · exact ha b hb2

theorem sortSeqDesc_sorted (l : List Event) :
    List.Pairwise (fun a b => b.seq ≤ a.seq) (sortSeqDesc l) := by
  induction l with
  | nil => exact List.Pairwise.nil
  | cons e tl ih => exact insertDesc_sorted e (sortSeqDesc tl) ih

/-- Keys accumulated by a scan. -/
def scanSeen (keep : String × String → Bool) (seen : List (String × String)) :
    List Event → List (String × String)
  | [] => seen
  | ev :: tl =>
      let k := dedupe_key ev
      if k ∈ seen then scanSeen keep seen tl
      else if keep k then scanSeen keep (k :: seen) tl
      else scanSeen keep seen tl

theorem dedupeScan_append (keep : String × String → Bool) (X Y : List Event) :
    ∀ seen, dedupeScan keep seen (X ++ Y)
      = dedupeScan keep seen X ++ dedupeScan keep (scanSeen keep seen X) Y := by
  induction X with
  | nil => intro seen; rfl
  | cons ev tl ih =>
      intro seen
      rw [List.cons_append, dedupeScan, dedupeScan, scanSeen]
      split
      · exact ih seen
      · split
        · rw [ih (dedupe_key ev :: seen), List.cons_append]
        · exact ih seen

theorem scanSeen_mono (keep : String × String → Bool) (X : List Event)
    (k : String × String) :
    ∀ seen, k ∈ seen → k ∈ scanSeen keep seen X := by
  induction X with
  | nil => intro seen h; exact h
  | cons ev tl ih =>
      intro seen h
      rw [scanSeen]
      split
      · exact ih seen h
      · split
        · exact ih _ (List.mem_cons_of_mem _ h)
        · exact ih seen h

theorem mem_scanSeen_true (X : List Event) (ev : Event) (hev : ev ∈ X) :
    ∀ seen, dedupe_key ev ∈ scanSeen (fun _ => true) seen X := by
  induction X with
  | nil => cases hev
  | cons a tl ih =>
      intro seen
      rw [scanSeen]
      rcases List.mem_cons.mp hev with h1 | h2
      · subst h1
        split
        · exact scanSeen_mono _ tl _ seen (by assumption)
        · simp only [if_true]
          exact scanSeen_mono _ tl _ _ (List.mem_cons_self _ _)
      · split
        · exact ih h2 seen
        · simp only [if_true]
          exact ih h2 _

theorem dedupeScan_nil_of_seen (keep : String × String → Bool) (Y : List Event) :
    ∀ seen, (∀ ev ∈ Y, dedupe_key ev ∈ seen) → dedupeScan keep seen Y = [] := by
  induction Y with
  | nil => intro seen _; rfl
  | cons ev tl ih =>
      intro seen h
      rw [dedupeScan]
      rw [if_pos (h ev (List.mem_cons_self _ _))]
      exact ih seen (fun e he => h e (List.mem_cons_of_mem _ he))

theorem dedupeScan_mem (keep : String × String → Bool) (l : List Event) (e : Event) :
    ∀ seen, e ∈ dedupeScan keep seen l →
      e ∈ l ∧ keep (dedupe_key e) = true ∧ dedupe_key e ∉ seen := by
  induction l with
  | nil => intro seen h; cases h
  | cons ev tl ih =>
      intro seen h
      rw [dedupeScan] at h
      by_cases h1 : dedupe_key ev ∈ seen
      · rw [if_pos h1] at h
        obtain ⟨hm, hk, hs⟩ := ih seen h
        exact ⟨List.mem_cons_of_mem _ hm, hk, hs⟩
      · rw [if_neg h1] at h
        by_cases h2 : keep (dedupe_key ev) = true
        · rw [if_pos h2] at h
          rcases List.mem_cons.mp h with h3 | h4
          · subst h3; exact ⟨List.mem_cons_self _ _, h2, h1⟩
          · obtain ⟨hm, hk, hs⟩ := ih _ h4
            exact ⟨List.mem_cons_of_mem _ hm, hk,
              fun hc => hs (List.mem_cons_of_mem _ hc)⟩
        · rw [if_neg h2] at h
          obtain ⟨hm, hk, hs⟩ := ih seen h
          exact ⟨List.mem_cons_of_mem _ hm, hk, hs⟩

theorem dedupeScan_pairwise (keep : String × String → Bool) (l : List Event) :
    ∀ seen, List.Pairwise (fun a b => dedupe_key a ≠ dedupe_key b)
      (dedupeScan keep seen l) := by
  induction l with
  | nil => intro seen; exact List.Pairwise.nil
  | cons ev tl ih =>
      intro seen
      rw [dedupeScan]
      split
      · exact ih seen
      · split
        · refine List.pairwise_cons.mpr ⟨?_, ih _⟩
          intro b hb
          have := (dedupeScan_mem keep tl b _ hb).2.2
          intro hc
          exact this (by rw [← hc]; exact List.mem_cons_self _ _)
        · exact ih seen

theorem pairwise_key_sortSeqDesc (l : List Event)
    (h : List.Pairwise (fun a b => dedupe_key a ≠ dedupe_key b) l) :
    List.Pairwise (fun a b => dedupe_key a ≠ dedupe_key b) (sortSeqDesc l) := by
  refine ((sortSeqDesc_perm l).pairwise_iff ?_).mpr h
  intro a b hab
  exact fun hc => hab hc.symm

/-- C6: with the dedupe key being the non-empty id of the index (tagged) or
else the seq (tagged), merging a list with itself gives its deduplication;
every event of an intersection comes from the left operand and its key occurs
among the keys of the right; intersection and difference share no key; and
every binary-op result is key-deduplicated and sorted by seq descending. -/
theorem C6_binary_set_algebra :
    (∀ X : List Event, apply_binary_op X X "merge" = some (dedupe X)) ∧
    (∀ (X Y r : List Event), apply_binary_op X Y "intersection" = some r →
       ∀ e ∈ r, e ∈ X ∧ dedupe_key e ∈ Y.map dedupe_key) ∧
    (∀ (X Y ri rd : List Event), apply_binary_op X Y "intersection" = some ri →
       apply_binary_op X Y "difference" = some rd →
       ∀ e1 ∈ ri, ∀ e2 ∈ rd, dedupe_key e1 ≠ dedupe_key e2) ∧
    (∀ (X Y : List Event) (op : String) (r : List Event),
       apply_binary_op X Y op = some r →
       List.Pairwise (fun a b => dedupe_key a ≠ dedupe_key b) r ∧
       List.Pairwise (fun a b => b.seq ≤ a.seq) r) := by
  have hmerge : ∀ X Y : List Event,
      apply_binary_op X Y "merge"
        = some (sortSeqDesc (dedupeScan (fun _ => true) [] (X ++ Y))) := by
    intro X Y
    rfl
  have hinter : ∀ X Y : List Event,
      apply_binary_op X Y "intersection"
        = some (sortSeqDesc (dedupeScan (fun k => k ∈ Y.map dedupe_key) [] X)) := by
    intro X Y
    rfl
  have hdiff : ∀ X Y : List Event,
      apply_binary_op X Y "difference"
        = some (sortSeqDesc (dedupeScan (fun k => k ∉ Y.map dedupe_key) [] X)) := by
    intro X Y
    rfl
  refine ⟨?_, ?_, ?_, ?_⟩
  · intro X
    rw [hmerge, dedupe]
    have habs : dedupeScan (fun _ => true) [] (X ++ X)
        = dedupeScan (fun _ => true) [] X := by
      rw [dedupeScan_append]
      rw [dedupeScan_nil_of_seen _ X _ (fun ev hev => mem_scanSeen_true X ev hev [])]
      exact List.append_nil _
    rw [habs]
  · intro X Y r hr e he
    rw [hinter] at hr
    have hre : r = sortSeqDesc (dedupeScan (fun k => k ∈ Y.map dedupe_key) [] X) :=
      ((Option.some.injEq _ _).mp hr).symm
    subst hre
    have hmem := (mem_sortSeqDesc e _).mp he
    obtain ⟨hx, hk, _⟩ := dedupeScan_mem _ X e [] hmem
    exact ⟨hx, by simpa using hk⟩
  · intro X Y ri rd hri hrd e1 he1 e2 he2
    rw [hinter] at hri
    rw [hdiff] at hrd
    have hri2 : ri = sortSeqDesc (dedupeScan (fun k => k ∈ Y.map dedupe_key) [] X) :=
      ((Option.some.injEq _ _).mp hri).symm
    have hrd2 : rd = sortSeqDesc (dedupeScan (fun k => k ∉ Y.map dedupe_key) [] X) :=
      ((Option.some.injEq _ _).mp hrd).symm
    subst hri2
    subst hrd2
    have h1 := (dedupeScan_mem _ X e1 [] ((mem_sortSeqDesc e1 _).mp he1)).2.1
    have h2 := (dedupeScan_mem _ X e2 [] ((mem_sortSeqDesc e2 _).mp he2)).2.1
    intro hc
    rw [hc] at h1
    simp only [decide_eq_true_eq] at h1 h2
    exact h2 h1
  · intro X Y op r hr
    by_cases hm : op = "merge"
    · subst hm
      rw [hmerge] at hr
      have hre : r = sortSeqDesc (dedupeScan (fun _ => true) [] (X ++ Y)) :=
        ((Option.some.injEq _ _).mp hr).symm
      subst hre
      exact ⟨pairwise_key_sortSeqDesc _ (dedupeScan_pairwise _ _ []), sortSeqDesc_sorted _⟩
    · by_cases hi : op = "intersection"
      · subst hi
        rw [hinter] at hr
        have hre : r = sortSeqDesc (dedupeScan (fun k => k ∈ Y.map dedupe_key) [] X) :=
          ((Option.some.injEq _ _).mp hr).symm
        subst hre
        exact ⟨pairwise_key_sortSeqDesc _ (dedupeScan_pairwise _ _ []), sortSeqDesc_sorted _⟩
      · by_cases hd : op = "difference"
        · subst hd
          rw [hdiff] at hr
          have hre : r = sortSeqDesc (dedupeScan (fun k => k ∉ Y.map dedupe_key) [] X) :=
            ((Option.some.injEq _ _).mp hr).symm
          subst hre
          exact ⟨pairwise_key_sortSeqDesc _ (dedupeScan_pairwise _ _ []), sortSeqDesc_sorted _⟩
        · rw [apply_binary_op, if_pos ⟨hm, hi, hd⟩] at hr
          cases hr

/-- Witness for C6 at concrete one-event operands. -/
theorem C6_binary_set_algebra_witness :
    ∀ e ∈ [(⟨1, 0, "s", "a", Json.null, baseIndex 0⟩ : Event)],
      e ∈ [(⟨1, 0, "s", "a", Json.null, baseIndex 0⟩ : Event)] ∧
      dedupe_key e ∈ ([(⟨1, 0, "s", "a", Json.null, baseIndex 0⟩ : Event)]).map dedupe_key :=
  C6_binary_set_algebra.2.1 [⟨1, 0, "s", "a", Json.null, baseIndex 0⟩]
    [⟨1, 0, "s", "a", Json.null, baseIndex 0⟩]
    [⟨1, 0, "s", "a", Json.null, baseIndex 0⟩] rfl

/-! ## C9: the read cache is a stale full-buffer snapshot -/

theorem runOps_append (l1 l2 : List SOp) : ∀ st : StoreSt,
    runOps st (l1 ++ l2) = runOps (runOps st l1) l2 := by
  induction l1 with
  | nil => intro st; rfl
  | cons o tl ih =>
      intro st
      rw [List.cons_append, runOps, runOps]
      exact ih _

theorem take_append_le {α : Type} (l1 l2 : List α) (n : Nat) (h : n ≤ l1.length) :
    (l1 ++ l2).take n = l1.take n := by
  induction l1 generalizing n with
  | nil =>
      have : n = 0 := by simpa using h
      subst this
      rfl
  | cons a tl ih =>
      cases n with
      | zero => rfl
      | succ k =>
          rw [List.cons_append, List.take, List.take]
          rw [ih k (by simpa using h)]

theorem publishEach_runOps (s t : String) (items : List (Json × Rat × Bool)) :
    ∀ st : StoreSt,
      (publishEach s t st items).2
        = runOps st (items.map (fun r => SOp.pub s t r.1 r.2.1 r.2.2)) := by
  induction items with
  | nil => intro st; rfl
  | cons it tl ih =>
      intro st
      obtain ⟨p, ts2, f⟩ := it
      show (publishEach s t _ tl).2 = runOps _ (tl.map _)
      exact ih _

theorem cache_snapshot (m tm : Nat) (tr : List SOp) :
    ∀ (t : String) (c : List Event),
      alGet (runOps (StoreSt.new m tm) tr).read_cache t = some c →
      ∃ n, n ≤ tr.length ∧ c = bufOf (runOps (StoreSt.new m tm) (tr.take n)) t := by
  induction tr using List.reverseRecOn with
  | nil =>
      intro t c hc
      simp [runOps, StoreSt.new, alGet] at hc
  | append_singleton l o ih =>
      intro t c hc
      rw [runOps_append] at hc
      have hstep : ∀ (n : Nat), n ≤ l.length →
          c = bufOf (runOps (StoreSt.new m tm) (l.take n)) t →
          ∃ n2, n2 ≤ (l ++ [o]).length ∧
            c = bufOf (runOps (StoreSt.new m tm) ((l ++ [o]).take n2)) t := by
        intro n hn hcc
        refine ⟨n, by simp; omega, ?_⟩
        rw [take_append_le l [o] n hn]
        exact hcc
      cases o with
      | pub s t0 p ts f =>
          have hcache := (publish_fields (runOps (StoreSt.new m tm) l) s t0 p ts f).2.2.2.2
          have hone : runOps (runOps (StoreSt.new m tm) l) [SOp.pub s t0 p ts f]
              = ((runOps (StoreSt.new m tm) l).publish s t0 p ts f).2 := rfl
          rw [hone, hcache] at hc
          cases f with
          | false =>
              simp only [Bool.false_eq_true, if_false] at hc
              obtain ⟨n, hn, hcc⟩ := ih t c hc
              exact hstep n hn hcc
          | true =>
              simp only [if_true] at hc
              by_cases ht : t0 = t
              · subst ht
                rw [alGet_alInsert_self] at hc
                have hcq : c = trimFront (runOps (StoreSt.new m tm) l).maxlen
                    (bufOf (runOps (StoreSt.new m tm) l) t0
                      ++ [((runOps (StoreSt.new m tm) l).publish s t0 p ts true).1]) :=
                  (Option.some.injEq _ _).mp hc.symm
                refine ⟨(l ++ [SOp.pub s t0 p ts true]).length, le_refl _, ?_⟩
                rw [List.take_length, runOps_append, hone, bufOf_publish, if_pos rfl]
                exact hcq
              · rw [alGet_alInsert_ne _ _ _ _ ht] at hc
                obtain ⟨n, hn, hcc⟩ := ih t c hc
                exact hstep n hn hcc
      | clear t0 ts =>
          obtain ⟨n, hn, hcc⟩ := ih t c hc
          exact hstep n hn hcc
      | recent t0 nn =>
          rw [show runOps (runOps (StoreSt.new m tm) l) [SOp.recent t0 nn]
              = ((runOps (StoreSt.new m tm) l).get_recent t0 nn).2 from rfl,
            (get_recent_state _ t0 nn).2.1] at hc
          obtain ⟨n, hn, hcc⟩ := ih t c hc
          exact hstep n hn hcc
      | since t0 a nn =>
          obtain ⟨n, hn, hcc⟩ := ih t c hc
          exact hstep n hn hcc

/-- C9: the read-cache entry of a topic, when present, is exactly the topic
buffer as it stood at some reachable point of the operation trace (the last
successful refresh) — a contiguous suffix view containing only events that
were in the buffer at that refresh; replace_topic decomposes into a clear
followed by fresh publishes and so preserves the invariant like every other
store operation; get_since reads only the buffers, the cache being consulted
only by get_recent, whose hit path returns a suffix window of the cached
snapshot. -/
theorem C9_read_cache_stale_snapshot :
    (∀ (m tm : Nat) (tr : List SOp) (t : String) (c : List Event),
       alGet (runOps (StoreSt.new m tm) tr).read_cache t = some c →
       ∃ n, n ≤ tr.length ∧ c = bufOf (runOps (StoreSt.new m tm) (tr.take n)) t) ∧
    (∀ (st : StoreSt) (s t : String) (items : List (Json × Rat × Bool)) (ts : Rat),
       (st.replace_topic s t items ts).2
         = runOps st (SOp.clear t ts :: items.map (fun r => SOp.pub s t r.1 r.2.1 r.2.2))) ∧
    (∀ (stA stB : StoreSt) (topic : Option String) (a l : Nat), stA.topics = stB.topics →
       (stA.get_since topic a l).1 = (stB.get_since topic a l).1) ∧
    (∀ (st : StoreSt) (t : String) (n : Nat) (c : List Event),
       alGet st.read_cache t = some c →
       (st.get_recent t n).1 = c.drop (c.length - min n c.length)) := by
  refine ⟨cache_snapshot, ?_, ?_, ?_⟩
  · intro st s t items ts
    rw [runOps]
    exact publishEach_runOps s t items _
  · intro stA stB topic a l h
    unfold StoreSt.get_since
    rw [h]
  · intro st t n c h
    unfold StoreSt.get_recent
    rw [h]

/-- Witness for C9 at a one-publish trace with a successful cache refresh. -/
theorem C9_read_cache_stale_snapshot_witness :
    ∃ n, n ≤ ([SOp.pub "s" "a" Json.null 0 true]).length ∧
      [⟨1, 0, "s", "a", Json.null, baseIndex 0⟩]
        = bufOf (runOps (StoreSt.new 2 2) (([SOp.pub "s" "a" Json.null 0 true]).take n)) "a" :=
  C9_read_cache_stale_snapshot.1 2 2 [SOp.pub "s" "a" Json.null 0 true] "a"
    [⟨1, 0, "s", "a", Json.null, baseIndex 0⟩] rfl

/-- Witness for C4 at a concrete two-publish trace. -/
theorem C4_seq_monotone_unique_witness :
    (runPubLog (StoreSt.new 3 2)
        [SOp.pub "s" "a" Json.null 0 true, SOp.pub "s" "b" Json.null 0 true]).1.map Event.seq
      = List.range' 1 (pubCount
        [SOp.pub "s" "a" Json.null 0 true, SOp.pub "s" "b" Json.null 0 true]) ∧
    (∀ e ∈ (runPubLog (StoreSt.new 3 2)
        [SOp.pub "s" "a" Json.null 0 true, SOp.pub "s" "b" Json.null 0 true]).1, 1 ≤ e.seq) ∧
    List.Pairwise (· < ·) ((runPubLog (StoreSt.new 3 2)
        [SOp.pub "s" "a" Json.null 0 true, SOp.pub "s" "b" Json.null 0 true]).1.map Event.seq) :=
  C4_seq_monotone_unique 3 2
    [SOp.pub "s" "a" Json.null 0 true, SOp.pub "s" "b" Json.null 0 true] (by decide)

/-! ## MessagePack encoded sizes (rmp_serde to_vec_named) -/

/-- Encoded byte count of an integer (rmp minimal int encoding). -/
def intSize (n : Int) : Nat :=
  if 0 ≤ n then
    if n ≤ 127 then 1
    else if n ≤ 255 then 2
    else if n ≤ 65535 then 3
    else if n ≤ 4294967295 then 5
    else 9
  else
    if -32 ≤ n then 1
    else if -128 ≤ n then 2
    else if -32768 ≤ n then 3
    else if -2147483648 ≤ n then 5
    else 9

/-- Encoded byte count of a string (fixstr / str8 / str16 / str32 header). -/
def strSize (s : String) : Nat :=
  let L := s.utf8ByteSize
  (if L ≤ 31 then 1 else if L ≤ 255 then 2 else if L ≤ 65535 then 3 else 5) + L

def arrHdr (n : Nat) : Nat := if n ≤ 15 then 1 else if n ≤ 65535 then 3 else 5

def mapHdr (n : Nat) : Nat := if n ≤ 15 then 1 else if n ≤ 65535 then 3 else 5

def binSize (len : Nat) : Nat :=
  (if len ≤ 255 then 2 else if len ≤ 65535 then 3 else 5) + len

def jsonListLength : JsonList → Nat
  | .nil => 0
  | .cons _ tl => jsonListLength tl + 1

def jsonKVsLength : JsonKVs → Nat
  | .nil => 0
  | .cons _ _ tl => jsonKVsLength tl + 1

def mpListLength : MpList → Nat
  | .nil => 0
  | .cons _ tl => mpListLength tl + 1

def mpKVsLength : MpKVs → Nat
  | .nil => 0
  | .cons _ _ tl => mpKVsLength tl + 1

-- Byte count of rmp_serde::to_vec_named of a serde_json value (floats are
-- doubles: 9 bytes).
mutual
def encSizeJson : Json → Nat
  | .null => 1
  | .bool _ => 1
  | .int n => intSize n
  | .float _ => 9
  | .str s => strSize s
  | .arr xs => arrHdr (jsonListLength xs) + encSizeJsonL xs
  | .obj kvs => mapHdr (jsonKVsLength kvs) + encSizeJsonK kvs

def encSizeJsonL : JsonList → Nat
  | .nil => 0
  | .cons hd tl => encSizeJson hd + encSizeJsonL tl

def encSizeJsonK : JsonKVs → Nat
  | .nil => 0
  | .cons k v tl => strSize k + encSizeJson v + encSizeJsonK tl
end

-- Byte count of rmp_serde::to_vec_named of an rmpv value (the model carries
-- F64 floats only: 9 bytes).
mutual
def encSizeMp : Mp → Nat
  | .nil => 1
  | .bool _ => 1
  | .int n => intSize n
  | .float _ => 9
  | .str s => strSize s
  | .bin len => binSize len
  | .arr xs => arrHdr (mpListLength xs) + encSizeMpL xs
  | .map kvs => mapHdr (mpKVsLength kvs) + encSizeMpK kvs

def encSizeMpL : MpList → Nat
  | .nil => 0
  | .cons hd tl => encSizeMp hd + encSizeMpL tl

def encSizeMpK : MpKVs → Nat
  | .nil => 0
  | .cons k v tl => encSizeMp k + encSizeMp v + encSizeMpK tl
end

/-! ## RPC handler layer (handlers.rs) -/

/-- Configuration snapshot (environment variables with their defaults). -/
structure Cfg where
  mode : String
  topic_name_max_len : Nat
  topic_max : Nat
  payload_max_bytes : Nat
  validate_payload_bytes : Bool
  pub_enabled : Bool
  get_recent_max_limit : Nat

/-- Which encoder produced a byte body: rmp_serde (binary) or serde_json. -/
inductive BodyEnc where
  | mp (v : Json)
  | json (v : Json)

/-- One fan-out frame on the pub channel: topic key bytes and encoded body. -/
structure PubFrame where
  topic : String
  body : BodyEnc

/-- Typed RPC results (rpc.rs result structs; byte encoding abstracted). -/
inductive RpcResult where
  | health (ts : Rat)
  | getRecent (store topic : String) (items : List Event) (light : Bool)
  | query (store topic : String) (items : List Event) (light : Bool)
  | publish (ev : Event)
  | replay (store : String) (items : List Event) (light : Bool)

/-- An RPC response envelope: rpc_ok or rpc_err. -/
inductive RpcOut where
  | ok (req_id : String) (result : RpcResult)
  | err (req_id : String) (code : String) (msg : String)

def RpcOut.isOk : RpcOut → Bool
  | .ok _ _ => true
  | .err _ _ _ => false

def RpcOut.errCode : RpcOut → Option String
  | .ok _ _ => none
  | .err _ c _ => some c

def RpcOut.errMsg : RpcOut → Option String
  | .ok _ _ => none
  | .err _ _ m => some m

def MpState := List (String × StoreSt)

/-- The u64 → i64 cast (`as i64`) with two-complement wrap. -/
def wrapI64 (n : Nat) : Int :=
  if n < 2 ^ 63 then (n : Int) else (n : Int) - 2 ^ 64

/-- Body of a fan-out frame: the map with keys seq, ts, store, topic, payload,
index built from the event. -/
def pubBodyJson (ev : Event) : Json :=
  Json.mkObj
    [("seq", .int (ev.seq : Int)), ("ts", .float ev.ts), ("store", .str ev.store),
     ("topic", .str ev.topic), ("payload", ev.payload), ("index", ev.index)]

def mpStore (args : Mp) : String := (mp_get_str args "store").getD "messages"

def mpTopic (args : Mp) : String := (mp_get_str args "topic").getD ""

def mpPayload (args : Mp) : Mp := (mp_get args "payload").getD Mp.nil

/-- Success tail of handle_publish_mp: publish into the found store and
enqueue the fan-out frame (topic-only key, binary body) when a channel
exists. -/
def mpPublishBody (req_id : String) (args : Mp) (now : Rat)
    (hasPubTx tryReadOk : Bool) (state : MpState) (payload_json : Json)
    (s : StoreSt) : RpcOut × MpState × List PubFrame :=
  let r := s.publish (mpStore args) (mpTopic args) payload_json now tryReadOk
  let frames :=
    if hasPubTx then [PubFrame.mk r.1.topic (.mp (pubBodyJson r.1))] else []
  (.ok req_id (.publish r.1), alInsert state (mpStore args) r.2, frames)

/-- handlers.rs handle_publish_mp (binary decode path). The payload size
check is unconditional on this path; no topic_max check is performed. -/
def handle_publish_mp (req_id : String) (args : Mp) (cfg : Cfg) (now : Rat)
    (hasPubTx tryReadOk : Bool) (state : MpState) :
    RpcOut × MpState × List PubFrame :=
  if (mpTopic args).isEmpty then (.err req_id "BAD_ARGS" "topic is required", state, [])
  else if (mpTopic args).utf8ByteSize > cfg.topic_name_max_len then
    (.err req_id "BAD_ARGS" "topic too long", state, [])
  else if encSizeMp (mpPayload args) > cfg.payload_max_bytes then
    (.err req_id "BAD_ARGS" "payload too large", state, [])
  else
    match mpToJson (mpPayload args) with
    | none => (.err req_id "BAD_ARGS" "invalid payload", state, [])
    | some payload_json =>
        match alGet state (mpStore args) with
        | none => (.err req_id "BAD_STORE" "invalid store", state, [])
        | some s =>
            mpPublishBody req_id args now hasPubTx tryReadOk state payload_json s

/-! ### handle_query_mp (binary decode path) -/

structure QFilters where
  plugin_id : Option String
  source : Option String
  kind : Option String
  type_ : Option String
  priority_min : Option Int
  since_ts : Option Rat
  until_ts : Option Rat

def queryStore (args : Mp) : String := (mp_get_str args "store").getD "messages"

def queryTopic (args : Mp) : String := (mp_get_str args "topic").getD "*"

def queryLight (args : Mp) : Bool := ((mp_get args "light").bind Mp.as_bool).getD false

/-- The decoded limit: as_u64 with default 200, then the `as i64` cast. -/
def queryLimitRaw (args : Mp) : Int :=
  wrapI64 (((mp_get args "limit").bind Mp.as_u64).getD 200)

def queryFilters (args : Mp) : QFilters :=
  { plugin_id := (mp_get_str args "plugin_id").filter (fun s => !s.isEmpty)
    source := (mp_get_str args "source").filter (fun s => !s.isEmpty)
    kind := (mp_get_str args "kind").filter (fun s => !s.isEmpty)
    type_ := (mp_get_str args "type").filter (fun s => !s.isEmpty)
    priority_min :=
      match (mp_get args "priority_min").bind Mp.as_i64 with
      | some v => some v
      | none => (mp_get_str args "priority_min").bind parseI64
    since_ts :=
      match (mp_get args "since_ts").bind Mp.as_f64 with
      | some v => some v
      | none => (mp_get_str args "since_ts").bind parseF64
    until_ts :=
      match (mp_get args "until_ts").bind Mp.as_f64 with
      | some v => some v
      | none => (mp_get_str args "until_ts").bind parseF64 }

/-- The snapshot pass of handle_query_mp: all topic queues for `*`, else the
single named queue. -/
def selectedEvents (state : MpState) (store topic : String) : List Event :=
  match alGet state store with
  | none => []
  | some s =>
      if topic.trim = "*" then (s.topics.map Prod.snd).flatten
      else (alGet s.topics topic).getD []

/-- The filter chain of handle_query_mp over the index record, one continue
per test. -/
def queryPassIdx (flt : QFilters) (idx : JsonKVs) : Bool :=
  (match flt.plugin_id with
   | some pid => (jGet idx "plugin_id").bind Json.as_str == some pid
   | none => true) &&
  (match flt.source with
   | some src => (jGet idx "source").bind Json.as_str == some src
   | none => true) &&
  (match flt.kind with
   | some kd => (jGet idx "kind").bind Json.as_str == some kd
   | none => true) &&
  (match flt.type_ with
   | some tp => (jGet idx "type").bind Json.as_str == some tp
   | none => true) &&
  (match flt.priority_min with
   | some pmin => !(((jGet idx "priority").bind Json.as_i64).getD 0 < pmin)
   | none => true) &&
  (match flt.since_ts with
   | some s_ts => !(((jGet idx "timestamp").bind Json.as_f64).getD 0 < s_ts)
   | none => true) &&
  (match flt.until_ts with
   | some u_ts => !(u_ts < ((jGet idx "timestamp").bind Json.as_f64).getD 0)
   | none => true)

/-- An event passes when its index is an object passing every test (events
without an object index are skipped by the loop). -/
def queryPass (flt : QFilters) (ev : Event) : Bool :=
  match ev.index.as_object with
  | none => false
  | some idx => queryPassIdx flt idx

/-- The limit after the default on a non-positive decode. -/
def queryLimitDefaulted (args : Mp) : Int :=
  if queryLimitRaw args ≤ 0 then 200 else queryLimitRaw args

/-- The limit after the default and the 10000 clamp. -/
def queryLimitClamped (args : Mp) : Int :=
  if queryLimitDefaulted args > 10000 then 10000 else queryLimitDefaulted args

/-- The effective topic: empty is replaced by star. -/
def queryEffTopic (args : Mp) : String :=
  if (queryTopic args).isEmpty then "*" else queryTopic args

/-- Success tail of handle_query_mp: snapshot, filter, sort by seq
descending, truncate. -/
def queryRun (req_id : String) (args : Mp) (state : MpState) : RpcOut :=
  .ok req_id (.query (queryStore args) (queryEffTopic args)
    ((sortSeqDesc ((selectedEvents state (queryStore args) (queryEffTopic args)).filter
        (queryPass (queryFilters args)))).take (queryLimitClamped args).toNat)
    (queryLight args))

/-- handlers.rs handle_query_mp. -/
def handle_query_mp (req_id : String) (args : Mp) (mode : String)
    (state : MpState) : RpcOut :=
  if queryLimitRaw args ≤ 0 ∧ mode = "strict" then
    .err req_id "BAD_ARGS" "invalid args: limit<=0"
  else if (queryTopic args).isEmpty ∧ mode = "strict" then
    .err req_id "BAD_ARGS" "invalid args: empty topic"
  else
    queryRun req_id args state

/-! ### handle_rpc (text decode path) -/

/-- Version resolution of the envelope: none encodes the strict-mode
missing-version rejection. -/
def versionOf (mode : String) (v_raw : Option Json) : Option Int :=
  match mode, v_raw with
  | "off", some vv => some (vv.as_i64.getD 1)
  | "off", none => some 1
  | "warn", some vv => some (vv.as_i64.getD 1)
  | "warn", none => some 1
  | "strict", some vv => some (vv.as_i64.getD (-1))
  | "strict", none => none
  | _, some vv => some (vv.as_i64.getD 1)
  | _, none => some 1

def jsStore (args_obj : JsonKVs) : String :=
  ((jGet args_obj "store").bind Json.as_str).getD "messages"

def grTopic (args_obj : JsonKVs) : String :=
  ((jGet args_obj "topic").bind Json.as_str).getD "all"

/-- The clamped bus.get_recent limit. -/
def grLimit (args_obj : JsonKVs) (cfg : Cfg) : Nat :=
  let limit0 := ((jGet args_obj "limit").bind Json.as_u64).getD 200
  if limit0 > cfg.get_recent_max_limit then cfg.get_recent_max_limit else limit0

def grLight (args_obj : JsonKVs) : Bool :=
  ((jGet args_obj "light").bind Json.as_bool).getD false

/-- Success tail of the bus.get_recent branch. -/
def grBody (req_id : String) (args_obj : JsonKVs) (cfg : Cfg) (state : MpState)
    (s : StoreSt) : RpcOut × MpState × List PubFrame :=
  let r := s.get_recent (grTopic args_obj) (grLimit args_obj cfg)
  (.ok req_id (.getRecent (jsStore args_obj) (grTopic args_obj) r.1 (grLight args_obj)),
   alInsert state (jsStore args_obj) r.2, [])

/-- bus.get_recent branch of handle_rpc. -/
def handleGetRecentJson (req_id : String) (args_obj : JsonKVs) (cfg : Cfg)
    (state : MpState) : RpcOut × MpState × List PubFrame :=
  match alGet state (jsStore args_obj) with
  | none => (.err req_id "BAD_STORE" "invalid store", state, [])
  | some s => grBody req_id args_obj cfg state s

def jsTopic (args_obj : JsonKVs) : String :=
  ((jGet args_obj "topic").bind Json.as_str).getD ""

/-- The text-path payload: non-object payloads are wrapped into value maps. -/
def jsPayload (args_obj : JsonKVs) : Json :=
  let p0 := (jGet args_obj "payload").getD Json.null
  if p0.is_object then p0 else Json.mkObj [("value", p0)]

/-- bus.publish branch of handle_rpc: wraps non-object payloads, checks the
size only when validation is enabled, enforces topic_max, and emits the pub
frame (store.topic key, JSON body) when the channel exists and publishing is
enabled. -/
def jsPublishBody (req_id : String) (args_obj : JsonKVs) (cfg : Cfg)
    (now : Rat) (hasPubTx tryReadOk : Bool) (state : MpState) (s : StoreSt) :
    RpcOut × MpState × List PubFrame :=
  if !(alContains s.meta (jsTopic args_obj)) ∧ s.meta.length ≥ cfg.topic_max then
    (.err req_id "BAD_ARGS" "too many topics", state, [])
  else
    let r := s.publish (jsStore args_obj) (jsTopic args_obj)
      (jsPayload args_obj) now tryReadOk
    let frames :=
      if hasPubTx ∧ cfg.pub_enabled then
        [PubFrame.mk (r.1.store ++ "." ++ r.1.topic) (.json (pubBodyJson r.1))]
      else []
    (.ok req_id (.publish r.1), alInsert state (jsStore args_obj) r.2, frames)

def handlePublishJson (req_id : String) (args_obj : JsonKVs) (cfg : Cfg)
    (now : Rat) (hasPubTx tryReadOk : Bool) (state : MpState) :
    RpcOut × MpState × List PubFrame :=
  if (jsTopic args_obj).isEmpty then
    (.err req_id "BAD_ARGS" "topic is required", state, [])
  else if (jsTopic args_obj).utf8ByteSize > cfg.topic_name_max_len then
    (.err req_id "BAD_ARGS" "topic too long", state, [])
  else if cfg.validate_payload_bytes
      ∧ encSizeJson (jsPayload args_obj) > cfg.payload_max_bytes then
    (.err req_id "BAD_ARGS" "payload too large", state, [])
  else
    match alGet state (jsStore args_obj) with
    | none => (.err req_id "BAD_STORE" "invalid store", state, [])
    | some s => jsPublishBody req_id args_obj cfg now hasPubTx tryReadOk state s

def reqIdOf (req_obj : JsonKVs) : String :=
  ((jGet req_obj "req_id").bind Json.as_str).getD ""

def opOf (req_obj : JsonKVs) : String :=
  ((jGet req_obj "op").bind Json.as_str).getD ""

def argsObjOf (req_obj : JsonKVs) : JsonKVs :=
  ((jGet req_obj "args").getD (Json.mkObj [])).as_object.getD .nil

/-- Dispatch of handle_rpc once the version is resolved. -/
def handleVersioned (v : Int) (req_obj : JsonKVs) (cfg : Cfg) (now : Rat)
    (hasPubTx tryReadOk : Bool) (state : MpState) :
    RpcOut × MpState × List PubFrame :=
  if v ≠ 1 then
    (.err (reqIdOf req_obj) "BAD_VERSION"
      ("unsupported protocol version: " ++ toString v), state, [])
  else if opOf req_obj = "ping" ∨ opOf req_obj = "health" then
    (.ok (reqIdOf req_obj) (.health now), state, [])
  else if opOf req_obj = "bus.get_recent" then
    handleGetRecentJson (reqIdOf req_obj) (argsObjOf req_obj) cfg state
  else if opOf req_obj = "bus.publish" then
    handlePublishJson (reqIdOf req_obj) (argsObjOf req_obj) cfg now hasPubTx tryReadOk state
  else
    (.err (reqIdOf req_obj) "UNKNOWN_OP" ("unknown op: " ++ opOf req_obj), state, [])

/-- Decoded-request body of handle_rpc. -/
def handleDecoded (req_obj : JsonKVs) (cfg : Cfg) (now : Rat)
    (hasPubTx tryReadOk : Bool) (state : MpState) :
    RpcOut × MpState × List PubFrame :=
  match versionOf cfg.mode (jGet req_obj "v") with
  | none => (.err (reqIdOf req_obj) "BAD_VERSION" "missing protocol version", state, [])
  | some v => handleVersioned v req_obj cfg now hasPubTx tryReadOk state

/-- handlers.rs handle_rpc (text decode path): ping/health, bus.get_recent
and bus.publish are handled; every other op falls through to UNKNOWN_OP. -/
def handle_rpc (req : Json) (cfg : Cfg) (now : Rat) (hasPubTx tryReadOk : Bool)
    (state : MpState) : RpcOut × MpState × List PubFrame :=
  match req.as_object with
  | none => (.err "" "BAD_REQ" "invalid request", state, [])
  | some req_obj => handleDecoded req_obj cfg now hasPubTx tryReadOk state

/-! ## C1: topic cap enforcement -/

def c1Cfg : Cfg := ⟨"strict", 128, 2, 262144, true, true, 1000⟩

/-- Store after two publishes that created topics t1 and t2 (topic_max 2). -/
def c1State : MpState :=
  [("messages",
    (((StoreSt.new 10 2).publish "messages" "t1" Json.null 0 true).2.publish
      "messages" "t2" Json.null 0 true).2)]

def c1Args : Mp :=
  Mp.map (mkMpMap [(.str "topic", .str "t3"), (.str "payload", Mp.map (mkMpMap []))])

def c1ArgsJson : JsonKVs := mkKVs [("topic", .str "t3"), ("payload", Json.mkObj [])]

/-- C1: on the binary decode path, publishing to a brand-new topic of a store
already holding topic_max topics is NOT rejected — the handler never checks
topic_max, accepts the request, and the topic set grows to three — while the
text decode path at the same input returns BAD_ARGS "too many topics". The
claim (reject on both paths, state unchanged) fails on the binary path. -/
theorem C1_binary_path_ignores_topic_cap :
    ((handle_publish_mp "r1" c1Args c1Cfg 0 true true c1State).1).isOk = true ∧
    ((alGet (handle_publish_mp "r1" c1Args c1Cfg 0 true true c1State).2.1 "messages").map
       (fun s => s.meta.length)) = some 3 ∧
    (handlePublishJson "r1" c1ArgsJson c1Cfg 0 true true c1State).1
      = .err "r1" "BAD_ARGS" "too many topics" ∧
    (handlePublishJson "r1" c1ArgsJson c1Cfg 0 true true c1State).2.1 = c1State :=
  ⟨rfl, rfl, rfl, rfl⟩


/-! ## Outcome characterizations of the publish handlers -/

theorem handle_publish_mp_outcomes (req_id : String) (args : Mp) (cfg : Cfg)
    (now : Rat) (hT tR : Bool) (state : MpState) :
    (∃ code msg, handle_publish_mp req_id args cfg now hT tR state
        = (.err req_id code msg, state, []) ∧
        (code, msg) ∈ [("BAD_ARGS", "topic is required"), ("BAD_ARGS", "topic too long"),
          ("BAD_ARGS", "payload too large"), ("BAD_ARGS", "invalid payload"),
          ("BAD_STORE", "invalid store")]) ∨
    (∃ s pj, alGet state (mpStore args) = some s ∧ mpToJson (mpPayload args) = some pj ∧
      handle_publish_mp req_id args cfg now hT tR state
        = mpPublishBody req_id args now hT tR state pj s) := by
  by_cases h1 : (mpTopic args).isEmpty = true
  · refine Or.inl ⟨"BAD_ARGS", "topic is required", ?_, by simp⟩
    unfold handle_publish_mp
    rw [if_pos h1]
  · by_cases h2 : (mpTopic args).utf8ByteSize > cfg.topic_name_max_len
    · refine Or.inl ⟨"BAD_ARGS", "topic too long", ?_, by simp⟩
      unfold handle_publish_mp
      rw [if_neg h1, if_pos h2]
    · by_cases h3 : encSizeMp (mpPayload args) > cfg.payload_max_bytes
      · refine Or.inl ⟨"BAD_ARGS", "payload too large", ?_, by simp⟩
        unfold handle_publish_mp
        rw [if_neg h1, if_neg h2, if_pos h3]
      · cases h4 : mpToJson (mpPayload args) with
        | none =>
            refine Or.inl ⟨"BAD_ARGS", "invalid payload", ?_, by simp⟩
            unfold handle_publish_mp
            rw [if_neg h1, if_neg h2, if_neg h3, h4]
        | some pj =>
            cases h5 : alGet state (mpStore args) with
            | none =>
                refine Or.inl ⟨"BAD_STORE", "invalid store", ?_, by simp⟩
                unfold handle_publish_mp
                rw [if_neg h1, if_neg h2, if_neg h3, h4, h5]
            | some s =>
                refine Or.inr ⟨s, pj, rfl, rfl, ?_⟩
                unfold handle_publish_mp
                rw [if_neg h1, if_neg h2, if_neg h3, h4, h5]

theorem handlePublishJson_outcomes (req_id : String) (args_obj : JsonKVs) (cfg : Cfg)
    (now : Rat) (hT tR : Bool) (state : MpState) :
    (∃ code msg, handlePublishJson req_id args_obj cfg now hT tR state
        = (.err req_id code msg, state, []) ∧
        (code, msg) ∈ [("BAD_ARGS", "topic is required"), ("BAD_ARGS", "topic too long"),
          ("BAD_ARGS", "payload too large"), ("BAD_STORE", "invalid store"),
          ("BAD_ARGS", "too many topics")] ∧
        (msg = "payload too large" → cfg.validate_payload_bytes = true)) ∨
    (∃ s, alGet state (jsStore args_obj) = some s ∧
      ¬((!alContains s.meta (jsTopic args_obj)) = true ∧ s.meta.length ≥ cfg.topic_max) ∧
      handlePublishJson req_id args_obj cfg now hT tR state
        = (.ok req_id (.publish
            (s.publish (jsStore args_obj) (jsTopic args_obj) (jsPayload args_obj) now tR).1),
           alInsert state (jsStore args_obj)
            (s.publish (jsStore args_obj) (jsTopic args_obj) (jsPayload args_obj) now tR).2,
           if hT = true ∧ cfg.pub_enabled = true then
             [PubFrame.mk
               ((s.publish (jsStore args_obj) (jsTopic args_obj) (jsPayload args_obj) now tR).1.store
                 ++ "." ++
                (s.publish (jsStore args_obj) (jsTopic args_obj) (jsPayload args_obj) now tR).1.topic)
               (.json (pubBodyJson
                 (s.publish (jsStore args_obj) (jsTopic args_obj) (jsPayload args_obj) now tR).1))]
           else [])) := by
  by_cases h1 : (jsTopic args_obj).isEmpty = true
  · refine Or.inl ⟨"BAD_ARGS", "topic is required", ?_, by simp,
      by intro hx; exact absurd hx (by decide)⟩
    unfold handlePublishJson
    rw [if_pos h1]
  · by_cases h2 : (jsTopic args_obj).utf8ByteSize > cfg.topic_name_max_len
    · refine Or.inl ⟨"BAD_ARGS", "topic too long", ?_, by simp,
        by intro hx; exact absurd hx (by decide)⟩
      unfold handlePublishJson
      rw [if_neg h1, if_pos h2]
    · by_cases h3 : cfg.validate_payload_bytes = true
          ∧ encSizeJson (jsPayload args_obj) > cfg.payload_max_bytes
      · refine Or.inl ⟨"BAD_ARGS", "payload too large", ?_, by simp, fun _ => h3.1⟩
        unfold handlePublishJson
        rw [if_neg h1, if_neg h2, if_pos h3]
      · cases h4 : alGet state (jsStore args_obj) with
        | none =>
            refine Or.inl ⟨"BAD_STORE", "invalid store", ?_, by simp,
              by intro hx; exact absurd hx (by decide)⟩
            unfold handlePublishJson
            rw [if_neg h1, if_neg h2, if_neg h3, h4]
        | some s =>
            by_cases h5 : (!alContains s.meta (jsTopic args_obj)) = true
                ∧ s.meta.length ≥ cfg.topic_max
            · refine Or.inl ⟨"BAD_ARGS", "too many topics", ?_, by simp,
                by intro hx; exact absurd hx (by decide)⟩
              have e : handlePublishJson req_id args_obj cfg now hT tR state
                  = jsPublishBody req_id args_obj cfg now hT tR state s := by
                unfold handlePublishJson
                rw [if_neg h1, if_neg h2, if_neg h3, h4]
              rw [e]
              unfold jsPublishBody
              rw [if_pos h5]
            · refine Or.inr ⟨s, rfl, h5, ?_⟩
              have e : handlePublishJson req_id args_obj cfg now hT tR state
                  = jsPublishBody req_id args_obj cfg now hT tR state s := by
                unfold handlePublishJson
                rw [if_neg h1, if_neg h2, if_neg h3, h4]
              rw [e]
              unfold jsPublishBody
              rw [if_neg h5]

/-! ## C10: payload size check per decode path -/

/-- C10: the binary decode path rejects an oversize payload with
BAD_ARGS "payload too large" unconditionally — the configuration carries
validate_payload_bytes but the binary path never consults it — leaving state
untouched and emitting nothing; with validation disabled the text path can
never produce that error. -/
theorem C10_size_check_unconditional_on_binary_path :
    (∀ (req_id : String) (args : Mp) (cfg : Cfg) (now : Rat) (hT tR : Bool)
       (state : MpState),
       ¬(mpTopic args).isEmpty = true →
       (mpTopic args).utf8ByteSize ≤ cfg.topic_name_max_len →
       encSizeMp (mpPayload args) > cfg.payload_max_bytes →
       handle_publish_mp req_id args cfg now hT tR state
         = (.err req_id "BAD_ARGS" "payload too large", state, [])) ∧
    (∀ (req_id : String) (args_obj : JsonKVs) (cfg : Cfg) (now : Rat) (hT tR : Bool)
       (state : MpState),
       cfg.validate_payload_bytes = false →
       (handlePublishJson req_id args_obj cfg now hT tR state).1.errMsg
         ≠ some "payload too large") := by
  constructor
  · intro req_id args cfg now hT tR state htne htlen hsize
    unfold handle_publish_mp
    rw [if_neg htne, if_neg (by omega), if_pos hsize]
  · intro req_id args_obj cfg now hT tR state hval
    rcases handlePublishJson_outcomes req_id args_obj cfg now hT tR state with
      ⟨code, msg, heq, _, hguard⟩ | ⟨s, _, _, heq⟩
    · rw [heq]
      intro hmsg
      have hm2 : msg = "payload too large" := by
        simpa [RpcOut.errMsg] using hmsg
      rw [hguard hm2] at hval
      cases hval
    · rw [heq]
      simp [RpcOut.errMsg]

/-- Witness for C10: a 4-byte payload against a 1-byte cap is rejected on the
binary path even though validation is switched off. -/
theorem C10_size_check_unconditional_on_binary_path_witness :
    handle_publish_mp "r"
        (Mp.map (mkMpMap [(.str "topic", .str "t"), (.str "payload", .str "abc")]))
        ⟨"strict", 128, 2000, 1, false, true, 1000⟩ 0 true true []
      = (.err "r" "BAD_ARGS" "payload too large", [], []) :=
  C10_size_check_unconditional_on_binary_path.1 "r"
    (Mp.map (mkMpMap [(.str "topic", .str "t"), (.str "payload", .str "abc")]))
    ⟨"strict", 128, 2000, 1, false, true, 1000⟩ 0 true true []
    (by decide) (by decide) (by decide)

/-! ## C7: fan-out frames -/

/-- C7 counterexample: a successful binary-path publish of topic chat in
store messages emits exactly one frame whose topic key is "chat", not
"messages.chat" as the claim requires. -/
theorem C7_counterexample_topic_key :
    ((handle_publish_mp "r" (Mp.map (mkMpMap [(.str "topic", .str "chat")]))
        c1Cfg 0 true true [("messages", StoreSt.new 10 10)]).1).isOk = true ∧
    ((handle_publish_mp "r" (Mp.map (mkMpMap [(.str "topic", .str "chat")]))
        c1Cfg 0 true true [("messages", StoreSt.new 10 10)]).2.2).map PubFrame.topic
      = ["chat"] ∧
    ("chat" : String) ≠ "messages.chat" :=
  ⟨rfl, rfl, by decide⟩

/-- C7 amended: a successful binary-path publish emits exactly one frame
whenever the pub channel exists (pub_enabled is not consulted there), with
topic key the bytes of the topic alone and the binary-encoded six-key body;
a successful text-path publish emits exactly one frame iff the channel exists
and publishing is enabled, with topic key "<store>.<topic>" and the
JSON-encoded six-key body; no frames otherwise. -/
theorem C7_fanout_frames_amended :
    (∀ (req_id : String) (args : Mp) (cfg : Cfg) (now : Rat) (hT tR : Bool)
       (state : MpState) (ev : Event),
       (handle_publish_mp req_id args cfg now hT tR state).1 = .ok req_id (.publish ev) →
       (handle_publish_mp req_id args cfg now hT tR state).2.2
         = (if hT then [PubFrame.mk ev.topic (.mp (pubBodyJson ev))] else [])) ∧
    (∀ (req_id : String) (args_obj : JsonKVs) (cfg : Cfg) (now : Rat) (hT tR : Bool)
       (state : MpState) (ev : Event),
       (handlePublishJson req_id args_obj cfg now hT tR state).1 = .ok req_id (.publish ev) →
       (handlePublishJson req_id args_obj cfg now hT tR state).2.2
         = (if hT ∧ cfg.pub_enabled then
              [PubFrame.mk (ev.store ++ "." ++ ev.topic) (.json (pubBodyJson ev))]
            else [])) := by
  constructor
  · intro req_id args cfg now hT tR state ev h
    rcases handle_publish_mp_outcomes req_id args cfg now hT tR state with
      ⟨code, msg, heq, _⟩ | ⟨s, pj, _, _, heq⟩
    · rw [heq] at h
      cases h
    · rw [heq] at h ⊢
      unfold mpPublishBody at h ⊢
      simp only [RpcOut.ok.injEq, RpcResult.publish.injEq] at h
      rw [← h.2]
  · intro req_id args_obj cfg now hT tR state ev h
    rcases handlePublishJson_outcomes req_id args_obj cfg now hT tR state with
      ⟨code, msg, heq, _, _⟩ | ⟨s, _, _, heq⟩
    · rw [heq] at h
      cases h
    · rw [heq] at h ⊢
      simp only [RpcOut.ok.injEq, RpcResult.publish.injEq] at h
      rw [← h.2]

/-- Witness for the amended C7 at a concrete binary-path publish. -/
theorem C7_fanout_frames_amended_witness :
    (handle_publish_mp "r" (Mp.map (mkMpMap [(.str "topic", .str "chat")]))
        c1Cfg 0 true true [("messages", StoreSt.new 10 10)]).2.2
      = (if true then
          [PubFrame.mk (⟨1, 0, "messages", "chat", Json.null, baseIndex 0⟩ : Event).topic
            (.mp (pubBodyJson ⟨1, 0, "messages", "chat", Json.null, baseIndex 0⟩))]
         else []) :=
  C7_fanout_frames_amended.1 "r" (Mp.map (mkMpMap [(.str "topic", .str "chat")]))
    c1Cfg 0 true true [("messages", StoreSt.new 10 10)]
    ⟨1, 0, "messages", "chat", Json.null, baseIndex 0⟩ rfl

/-! ## C8: op coverage on the text decode path -/

/-- C8 counterexample: a well-formed JSON-decoded bus.query request is
answered with UNKNOWN_OP by the text path rather than with the query result
the claim requires. -/
theorem C8_counterexample_query_unknown_on_text_path :
    (handle_rpc (Json.mkObj [("v", .int 1), ("req_id", .str "r"),
        ("op", .str "bus.query"), ("args", Json.mkObj [])])
      c1Cfg 0 true true [("messages", StoreSt.new 10 10)]).1
      = .err "r" "UNKNOWN_OP" "unknown op: bus.query" := rfl

theorem handleGetRecentJson_no_unknown (req_id : String) (args_obj : JsonKVs)
    (cfg : Cfg) (state : MpState) :
    (handleGetRecentJson req_id args_obj cfg state).1.errCode ≠ some "UNKNOWN_OP" := by
  cases h4 : alGet state (jsStore args_obj) with
  | none =>
      have e : handleGetRecentJson req_id args_obj cfg state
          = (.err req_id "BAD_STORE" "invalid store", state, []) := by
        unfold handleGetRecentJson
        rw [h4]
      rw [e]
      intro h
      simp [RpcOut.errCode] at h
  | some s =>
      have e : handleGetRecentJson req_id args_obj cfg state
          = grBody req_id args_obj cfg state s := by
        unfold handleGetRecentJson
        rw [h4]
      rw [e]
      intro h
      simp [grBody, RpcOut.errCode] at h

theorem handlePublishJson_no_unknown (req_id : String) (args_obj : JsonKVs)
    (cfg : Cfg) (now : Rat) (hT tR : Bool) (state : MpState) :
    (handlePublishJson req_id args_obj cfg now hT tR state).1.errCode
      ≠ some "UNKNOWN_OP" := by
  rcases handlePublishJson_outcomes req_id args_obj cfg now hT tR state with
    ⟨code, msg, heq, hmem, _⟩ | ⟨s, _, _, heq⟩
  · rw [heq]
    intro hcode
    have hc2 : code = "UNKNOWN_OP" := by
      simpa [RpcOut.errCode] using hcode
    rw [hc2] at hmem
    simp at hmem
  · rw [heq]
    simp [RpcOut.errCode]

/-- C8 amended: the text decode path handles only ping, health,
bus.get_recent and bus.publish; for a decodable request at protocol version 1
the response is UNKNOWN_OP exactly when the op lies outside that set — in
particular bus.query and bus.replay are served only by the binary path. -/
theorem C8_text_path_op_coverage_amended (req : Json) (cfg : Cfg) (now : Rat)
    (hT tR : Bool) (state : MpState) (req_obj : JsonKVs)
    (hobj : req.as_object = some req_obj)
    (hv : versionOf cfg.mode (jGet req_obj "v") = some 1) :
    ((handle_rpc req cfg now hT tR state).1.errCode = some "UNKNOWN_OP") ↔
      opOf req_obj ∉ (["ping", "health", "bus.get_recent", "bus.publish"] : List String) := by
  have e1 : handle_rpc req cfg now hT tR state
      = handleDecoded req_obj cfg now hT tR state := by
    unfold handle_rpc
    rw [hobj]
  have e2 : handleDecoded req_obj cfg now hT tR state
      = handleVersioned 1 req_obj cfg now hT tR state := by
    unfold handleDecoded
    rw [hv]
  rw [e1, e2]
  by_cases hping : opOf req_obj = "ping" ∨ opOf req_obj = "health"
  · have e3 : handleVersioned 1 req_obj cfg now hT tR state
        = (.ok (reqIdOf req_obj) (.health now), state, []) := by
      unfold handleVersioned
      rw [if_neg (by omega), if_pos hping]
    rw [e3]
    simp only [RpcOut.errCode]
    constructor
    · intro h
      cases h
    · intro h
      exact absurd (by rcases hping with h1 | h1 <;> simp [h1]) h
  · by_cases hgr : opOf req_obj = "bus.get_recent"
    · have e3 : handleVersioned 1 req_obj cfg now hT tR state
          = handleGetRecentJson (reqIdOf req_obj) (argsObjOf req_obj) cfg state := by
        unfold handleVersioned
        rw [if_neg (by omega), if_neg hping, if_pos hgr]
      rw [e3]
      constructor
      · intro h
        exact absurd h (handleGetRecentJson_no_unknown _ _ _ _)
      · intro h
        exact absurd (by simp [hgr]) h
    · by_cases hpub : opOf req_obj = "bus.publish"
      · have e3 : handleVersioned 1 req_obj cfg now hT tR state
            = handlePublishJson (reqIdOf req_obj) (argsObjOf req_obj) cfg now hT tR state := by
          unfold handleVersioned
          rw [if_neg (by omega), if_neg hping, if_neg hgr, if_pos hpub]
        rw [e3]
        constructor
        · intro h
          exact absurd h (handlePublishJson_no_unknown _ _ _ _ _ _ _)
        · intro h
          exact absurd (by simp [hpub]) h
      · have e3 : handleVersioned 1 req_obj cfg now hT tR state
            = (.err (reqIdOf req_obj) "UNKNOWN_OP" ("unknown op: " ++ opOf req_obj),
               state, []) := by
          unfold handleVersioned
          rw [if_neg (by omega), if_neg hping, if_neg hgr, if_neg hpub]
        rw [e3]
        simp only [RpcOut.errCode, Option.some.injEq]
        constructor
        · intro _
          simp only [List.mem_cons, List.mem_singleton, not_or]
          push_neg at hping
          exact ⟨hping.1, hping.2, hgr, by simpa using hpub⟩
        · intro _
          trivial

/-- Witness for the amended C8: bus.replay on the text path is UNKNOWN_OP. -/
theorem C8_text_path_op_coverage_amended_witness :
    ((handle_rpc (Json.mkObj [("v", .int 1), ("req_id", .str "r"),
        ("op", .str "bus.replay"), ("args", Json.mkObj [])])
      c1Cfg 0 true true []).1.errCode = some "UNKNOWN_OP") ↔
      opOf (mkKVs [("v", Json.int 1), ("req_id", .str "r"),
          ("op", .str "bus.replay"), ("args", Json.mkObj [])]) ∉
        (["ping", "health", "bus.get_recent", "bus.publish"] : List String) :=
  C8_text_path_op_coverage_amended
    (Json.mkObj [("v", .int 1), ("req_id", .str "r"),
      ("op", .str "bus.replay"), ("args", Json.mkObj [])])
    c1Cfg 0 true true [] _ rfl rfl

/-! ## C2: bus.query -/

/-- A field of the event index subrecord, as the spec filters read it. -/
def indexField (ev : Event) (k : String) : Option Json :=
  ev.index.as_object.bind (fun o => jGet o k)

/-- Spec-side filter over the index record: equality on the four string
fields, priority at least the minimum (missing priority counts 0), and
since_ts ≤ timestamp ≤ until_ts (missing timestamp counts 0). -/
def specMatchIdx (flt : QFilters) (idx : JsonKVs) : Bool :=
  (match flt.plugin_id with
   | some p => (jGet idx "plugin_id").bind Json.as_str == some p
   | none => true) &&
  (match flt.source with
   | some p => (jGet idx "source").bind Json.as_str == some p
   | none => true) &&
  (match flt.kind with
   | some p => (jGet idx "kind").bind Json.as_str == some p
   | none => true) &&
  (match flt.type_ with
   | some p => (jGet idx "type").bind Json.as_str == some p
   | none => true) &&
  (match flt.priority_min with
   | some m => decide (m ≤ ((jGet idx "priority").bind Json.as_i64).getD 0)
   | none => true) &&
  (match flt.since_ts with
   | some s => decide (s ≤ ((jGet idx "timestamp").bind Json.as_f64).getD 0)
   | none => true) &&
  (match flt.until_ts with
   | some u => decide (((jGet idx "timestamp").bind Json.as_f64).getD 0 ≤ u)
   | none => true)

/-- Spec-side event filter: the index record (always an object for events
produced through the API) must pass every supplied filter. -/
def specMatch (flt : QFilters) (ev : Event) : Bool :=
  match ev.index.as_object with
  | none => false
  | some idx => specMatchIdx flt idx

theorem not_lt_int (a b : Int) : (!decide (a < b)) = decide (b ≤ a) := by
  by_cases hc : a < b
  · simp [hc, not_le.mpr hc]
  · simp [hc, not_lt.mp hc]

theorem not_lt_rat (a b : Rat) : (!decide (a < b)) = decide (b ≤ a) := by
  by_cases hc : a < b
  · simp [hc, not_le.mpr hc]
  · simp [hc, not_lt.mp hc]

theorem queryPassIdx_eq_specMatchIdx (flt : QFilters) (idx : JsonKVs) :
    queryPassIdx flt idx = specMatchIdx flt idx := by
  unfold queryPassIdx specMatchIdx
  have e5 : (match flt.priority_min with
      | some pmin => !(((jGet idx "priority").bind Json.as_i64).getD 0 < pmin)
      | none => true)
      = (match flt.priority_min with
      | some m => decide (m ≤ ((jGet idx "priority").bind Json.as_i64).getD 0)
      | none => true) := by
    cases flt.priority_min with
    | none => rfl
    | some m => exact not_lt_int _ m
  have e6 : (match flt.since_ts with
      | some s_ts => !(((jGet idx "timestamp").bind Json.as_f64).getD 0 < s_ts)
      | none => true)
      = (match flt.since_ts with
      | some s => decide (s ≤ ((jGet idx "timestamp").bind Json.as_f64).getD 0)
      | none => true) := by
    cases flt.since_ts with
    | none => rfl
    | some s => exact not_lt_rat _ s
  have e7 : (match flt.until_ts with
      | some u_ts => !(u_ts < ((jGet idx "timestamp").bind Json.as_f64).getD 0)
      | none => true)
      = (match flt.until_ts with
      | some u => decide (((jGet idx "timestamp").bind Json.as_f64).getD 0 ≤ u)
      | none => true) := by
    cases flt.until_ts with
    | none => rfl
    | some u => exact not_lt_rat u _
  rw [e5, e6, e7]

theorem queryPass_eq_specMatch (flt : QFilters) (ev : Event) :
    queryPass flt ev = specMatch flt ev := by
  unfold queryPass specMatch
  cases ev.index.as_object with
  | none => rfl
  | some idx => exact queryPassIdx_eq_specMatchIdx flt idx

theorem queryLimitClamped_eq_min (args : Mp) (h : 0 < queryLimitRaw args) :
    queryLimitClamped args = min (queryLimitRaw args) 10000 := by
  unfold queryLimitClamped queryLimitDefaulted
  rw [if_neg (show ¬queryLimitRaw args ≤ 0 by omega)]
  by_cases hc : queryLimitRaw args > 10000
  · rw [if_pos hc]
    omega
  · rw [if_neg hc]
    omega

/-- C2 counterexample: a bus.query request carrying limit = -1 (a negative
MessagePack integer) in strict mode is answered ok with the default limit,
not with BAD_ARGS as the claim requires for limit ≤ 0. -/
theorem C2_counterexample_negative_limit :
    handle_query_mp "r" (Mp.map (mkMpMap [(.str "limit", .int (-1))])) "strict" []
      = .ok "r" (.query "messages" "*" [] false) ∧
    (handle_query_mp "r" (Mp.map (mkMpMap [(.str "limit", .int (-1))])) "strict" []).errCode
      = none :=
  ⟨rfl, rfl⟩

/-- C2 amended: in strict mode, with a decodable positive limit and a
non-empty (or defaulted) topic, bus.query returns exactly the stored events
of the selected topic (all topics for star) whose index passes every
supplied filter — equality on plugin_id, source, kind, type; priority ≥
priority_min with missing priority 0; since_ts ≤ timestamp ≤ until_ts —
sorted by seq descending and truncated to min(limit, 10000); a decoded limit
≤ 0 (the unsigned value 0, or ≥ 2^63 reinterpreted as signed) yields
BAD_ARGS; a negative supplied limit fails the unsigned decode and falls back
to the default 200 instead of erroring. -/
theorem C2_query_filter_amended :
    (∀ (req_id : String) (args : Mp) (state : MpState),
       0 < queryLimitRaw args →
       (queryTopic args).isEmpty = false →
       handle_query_mp req_id args "strict" state
         = .ok req_id (.query (queryStore args) (queryTopic args)
             ((sortSeqDesc ((selectedEvents state (queryStore args) (queryTopic args)).filter
                 (specMatch (queryFilters args)))).take
               (min (queryLimitRaw args) 10000).toNat)
             (queryLight args))) ∧
    (∀ (req_id : String) (args : Mp) (state : MpState),
       queryLimitRaw args ≤ 0 →
       handle_query_mp req_id args "strict" state
         = .err req_id "BAD_ARGS" "invalid args: limit<=0") ∧
    (∀ (args : Mp) (n : Int),
       mp_get args "limit" = some (.int n) → n < 0 → queryLimitRaw args = 200) := by
  refine ⟨?_, ?_, ?_⟩
  · intro req_id args state h1 h2
    unfold handle_query_mp
    rw [if_neg (show ¬(queryLimitRaw args ≤ 0 ∧ "strict" = "strict") from
        fun hc => absurd hc.1 (by omega)),
      if_neg (show ¬((queryTopic args).isEmpty = true ∧ "strict" = "strict") from
        fun hc => by cases h2.symm.trans hc.1)]
    unfold queryRun
    have htop : queryEffTopic args = queryTopic args := by
      unfold queryEffTopic
      rw [h2]
      rfl
    have hf : queryPass (queryFilters args) = specMatch (queryFilters args) :=
      funext (fun ev => queryPass_eq_specMatch _ ev)
    rw [htop, hf, queryLimitClamped_eq_min args h1]
  · intro req_id args state h
    unfold handle_query_mp
    rw [if_pos ⟨h, rfl⟩]
  · intro args n hget hneg
    unfold queryLimitRaw
    rw [hget]
    show wrapI64 ((if 0 ≤ n ∧ n ≤ 2 ^ 64 - 1 then some n.toNat else none).getD 200) = 200
    rw [if_neg (show ¬(0 ≤ n ∧ n ≤ 2 ^ 64 - 1) from fun hc => absurd hc.1 (by omega))]
    rfl

/-- Witness for the amended C2 at a concrete request for topic a against the
empty state. -/
theorem C2_query_filter_amended_witness :
    handle_query_mp "r" (Mp.map (mkMpMap [(.str "topic", .str "a")])) "strict" []
      = .ok "r" (.query
          (queryStore (Mp.map (mkMpMap [(.str "topic", .str "a")])))
          (queryTopic (Mp.map (mkMpMap [(.str "topic", .str "a")])))
          ((sortSeqDesc ((selectedEvents []
              (queryStore (Mp.map (mkMpMap [(.str "topic", .str "a")])))
              (queryTopic (Mp.map (mkMpMap [(.str "topic", .str "a")])))).filter
              (specMatch (queryFilters (Mp.map (mkMpMap [(.str "topic", .str "a")])))))).take
            (min (queryLimitRaw (Mp.map (mkMpMap [(.str "topic", .str "a")]))) 10000).toNat)
          (queryLight (Mp.map (mkMpMap [(.str "topic", .str "a")])))) :=
  C2_query_filter_amended.1 "r" (Mp.map (mkMpMap [(.str "topic", .str "a")])) []
    (by decide) (by decide)

end NekoMP
